import Mathlib

/-!
Verification development for the reed-solomon-erasure repository sources:
the Field trait default methods, the ReconstructShard implementations
(src/lib.rs), the platform detection logic (src/platform.rs), and the
GF(2^8) SIMD multiplication kernels (src/galois_8_avx2.rs,
src/galois_8_avx512.rs, src/galois_8_neon.rs).

Machine bytes are modelled as natural numbers below 256; byte buffers as
lists of naturals; SIMD vectors as lists of bytes (32 for AVX2, 64 for
AVX512, 16 for NEON); raw-pointer writes as functional list updates.
-/

namespace RSE

/-! ## 64-bit lane encoding (little-endian bytes), for the x86 srli_epi64 model -/

/-- Interpret a list of bytes as a little-endian natural number. -/
def u64ofLE : List Nat → Nat
  | [] => 0
  | b :: bs => b + 256 * u64ofLE bs

/-- Decompose a natural number into its 8 low little-endian bytes. -/
def u64toLE (v : Nat) : List Nat :=
  [v % 256, v / 2 ^ 8 % 256, v / 2 ^ 16 % 256, v / 2 ^ 24 % 256,
   v / 2 ^ 32 % 256, v / 2 ^ 40 % 256, v / 2 ^ 48 % 256, v / 2 ^ 56 % 256]

/-- One 64-bit lane of a logical shift right by 4, as performed by
srli_epi64 on x86: the 8 bytes are read as a little-endian 64-bit value,
shifted, and written back as bytes. -/
def srliLane4 (lane : List Nat) : List Nat :=
  u64toLE (u64ofLE lane >>> 4)

/-! ## Chunked vector operations shared by the SIMD models -/

/-- Apply a function to consecutive 8-byte sub-lanes of a vector (the
64-bit lanes of srli_epi64). -/
def mapChunks8 (f : List Nat → List Nat) (l : List Nat) : List Nat :=
  if l = [] then [] else f (l.take 8) ++ mapChunks8 f (l.drop 8)
termination_by l.length
decreasing_by
  simp only [List.length_drop]
  cases l with
  | nil => simp_all
  | cons x xs => simp only [List.length_cons]; omega

/-- Apply a binary function to consecutive 16-byte sub-lanes of two
vectors (the 128-bit lanes of the byte shuffles). -/
def zipChunks16 (f : List Nat → List Nat → List Nat) (a b : List Nat) : List Nat :=
  if a = [] then [] else f (a.take 16) (b.take 16) ++ zipChunks16 f (a.drop 16) (b.drop 16)
termination_by a.length
decreasing_by
  simp only [List.length_drop]
  cases a with
  | nil => simp_all
  | cons x xs => simp only [List.length_cons]; omega

/-- One byte of an x86 pshufb: if bit 7 of the mask byte is set the
result is 0, otherwise the table byte indexed by the low nibble. -/
def shufByte (table : List Nat) (m : Nat) : Nat :=
  if m &&& 0x80 = 0 then table.getD (m &&& 0x0F) 0 else 0

/-- One 128-bit lane of an x86 pshufb. -/
def pshufb128 (table mask : List Nat) : List Nat :=
  mask.map (shufByte table)

/-- Store a chunk of bytes into a buffer at the given offset (the model
of an unaligned vector store through a raw pointer). -/
def storeAt (out : List Nat) (off : Nat) (v : List Nat) : List Nat :=
  out.take off ++ v ++ out.drop (off + v.length)

/-- The while loop shared by the three gal_mul_impl functions: runs the
given per-chunk step for the given iteration count, advancing the write
offset by the vector width W each time; returns the final buffer and the
byte count done. -/
def galMulLoop (W : Nat) (step : List Nat → List Nat → List Nat) (in_0 : List Nat) :
    Nat → Nat → List Nat → List Nat × Nat
  | 0, done, out => (out, done)
  | k + 1, done, out =>
    let in_x := (in_0.drop done).take W
    let old := (out.drop done).take W
    let result := step in_x old
    galMulLoop W step in_0 k (done + W) (storeAt out done result)

/-! ## AVX2 kernel (src/galois_8_avx2.rs); vectors are 32 bytes -/

namespace AVX2

/-- Model of _mm_loadu_si128: read 16 bytes. -/
def loadu_v128 (p : List Nat) : List Nat := p.take 16

/-- Model of _mm256_set1_epi8: broadcast one byte to all 32 positions. -/
def set1_epi8_v (c : Nat) : List Nat := List.replicate 32 c

/-- Model of _mm256_srli_epi64: logical shift right by 4 within each
64-bit lane. -/
def srli_epi64_v (v : List Nat) : List Nat :=
  mapChunks8 srliLane4 v

/-- Model of _mm256_and_si256. -/
def and_v (a b : List Nat) : List Nat := List.zipWith (fun x y => x &&& y) a b

/-- Model of _mm256_xor_si256. -/
def xor_v (a b : List Nat) : List Nat := List.zipWith (fun x y => x ^^^ y) a b

/-- Model of _mm256_shuffle_epi8: a pshufb within each 128-bit lane. -/
def shuffle_epi8_v (vec mask : List Nat) : List Nat := zipChunks16 pshufb128 vec mask

/-- Model of _mm256_broadcastsi128_si256: replicate the 16 table bytes
into both 128-bit lanes. -/
def replicate_v128_v (vec : List Nat) : List Nat := vec ++ vec

/-- Translation of gal_mul_v from src/galois_8_avx2.rs. The modifier is
the function the source always passes as Some(..) and unwraps with
expect. -/
def gal_mul_v (low_mask_unpacked low_vector high_vector : List Nat)
    (modifier : List Nat → List Nat → List Nat) (in_x old : List Nat) : List Nat :=
  let low_input := and_v in_x low_mask_unpacked
  let in_x_shifted := srli_epi64_v in_x
  let high_input := and_v in_x_shifted low_mask_unpacked
  let mul_low_part := shuffle_epi8_v low_vector low_input
  let mul_high_part := shuffle_epi8_v high_vector high_input
  let new := xor_v mul_low_part mul_high_part
  modifier new old

/-- Translation of gal_mul_impl from src/galois_8_avx2.rs; the vector
width (size_of Vec) is 32 bytes. Returns the final output buffer
contents and the byte count the source returns. -/
def gal_mul_impl (low high in_0 out : List Nat) (len : Nat)
    (modifier : List Nat → List Nat → List Nat) : List Nat × Nat :=
  let low_mask_unpacked := set1_epi8_v 0xf
  let low_vector128 := loadu_v128 low
  let high_vector128 := loadu_v128 high
  let low_vector := replicate_v128_v low_vector128
  let high_vector := replicate_v128_v high_vector128
  galMulLoop 32 (gal_mul_v low_mask_unpacked low_vector high_vector modifier)
    in_0 (len / 32) 0 out

/-- Translation of noop from src/galois_8_avx2.rs. -/
def noop (new _old : List Nat) : List Nat := new

/-- Translation of gal_mul from src/galois_8_avx2.rs. -/
def gal_mul (low high in_0 out : List Nat) (len : Nat) : List Nat × Nat :=
  gal_mul_impl low high in_0 out len noop

/-- Translation of gal_mul_xor from src/galois_8_avx2.rs. -/
def gal_mul_xor (low high in_0 out : List Nat) (len : Nat) : List Nat × Nat :=
  gal_mul_impl low high in_0 out len xor_v

end AVX2

/-! ## AVX512 kernel (src/galois_8_avx512.rs); vectors are 64 bytes -/

namespace AVX512

/-- Model of _mm_loadu_si128: read 16 bytes. -/
def loadu_v128 (p : List Nat) : List Nat := p.take 16

/-- Model of _mm512_set1_epi8. -/
def set1_epi8_v (c : Nat) : List Nat := List.replicate 64 c

/-- Model of _mm512_srli_epi64: logical shift right by 4 within each
64-bit lane. -/
def srli_epi64_v (v : List Nat) : List Nat :=
  mapChunks8 srliLane4 v

/-- Model of _mm512_and_si512. -/
def and_v (a b : List Nat) : List Nat := List.zipWith (fun x y => x &&& y) a b

/-- Model of _mm512_xor_si512. -/
def xor_v (a b : List Nat) : List Nat := List.zipWith (fun x y => x ^^^ y) a b

/-- Model of _mm512_shuffle_epi8: a pshufb within each 128-bit lane. -/
def shuffle_epi8_v (vec mask : List Nat) : List Nat := zipChunks16 pshufb128 vec mask

/-- Model of _mm512_broadcast_i32x4: replicate the 16 table bytes into
all four 128-bit lanes. -/
def replicate_v128_v (vec : List Nat) : List Nat := vec ++ vec ++ vec ++ vec

/-- Translation of gal_mul_v from src/galois_8_avx512.rs. -/
def gal_mul_v (low_mask_unpacked low_vector high_vector : List Nat)
    (modifier : List Nat → List Nat → List Nat) (in_x old : List Nat) : List Nat :=
  let low_input := and_v in_x low_mask_unpacked
  let in_x_shifted := srli_epi64_v in_x
  let high_input := and_v in_x_shifted low_mask_unpacked
  let mul_low_part := shuffle_epi8_v low_vector low_input
  let mul_high_part := shuffle_epi8_v high_vector high_input
  let new := xor_v mul_low_part mul_high_part
  modifier new old

/-- Translation of gal_mul_impl from src/galois_8_avx512.rs; the vector
width is 64 bytes. -/
def gal_mul_impl (low high in_0 out : List Nat) (len : Nat)
    (modifier : List Nat → List Nat → List Nat) : List Nat × Nat :=
  let low_mask_unpacked := set1_epi8_v 0xf
  let low_vector128 := loadu_v128 low
  let high_vector128 := loadu_v128 high
  let low_vector := replicate_v128_v low_vector128
  let high_vector := replicate_v128_v high_vector128
  galMulLoop 64 (gal_mul_v low_mask_unpacked low_vector high_vector modifier)
    in_0 (len / 64) 0 out

/-- Translation of noop from src/galois_8_avx512.rs. -/
def noop (new _old : List Nat) : List Nat := new

/-- Translation of gal_mul from src/galois_8_avx512.rs. -/
def gal_mul (low high in_0 out : List Nat) (len : Nat) : List Nat × Nat :=
  gal_mul_impl low high in_0 out len noop

/-- Translation of gal_mul_xor from src/galois_8_avx512.rs. -/
def gal_mul_xor (low high in_0 out : List Nat) (len : Nat) : List Nat × Nat :=
  gal_mul_impl low high in_0 out len xor_v

end AVX512

/-! ## NEON kernel (src/galois_8_neon.rs); vectors are 16 bytes -/

namespace NEON

/-- Model of loadu_v128: read 16 bytes. -/
def loadu_v128 (p : List Nat) : List Nat := p.take 16

/-- Model of vdupq_n_u8. -/
def set1_epi8_v (c : Nat) : List Nat := List.replicate 16 c

/-- Translation of srli_epi64_v from src/galois_8_neon.rs: despite its
name, the body uses vshrq_n_u8, a shift right within each byte. -/
def srli_epi64_v (v : List Nat) : List Nat := v.map (fun b => b >>> 4)

/-- Model of vandq_u8. -/
def and_v (a b : List Nat) : List Nat := List.zipWith (fun x y => x &&& y) a b

/-- Model of veorq_u8. -/
def xor_v (a b : List Nat) : List Nat := List.zipWith (fun x y => x ^^^ y) a b

/-- Model of vqtbl1q_u8 (the aarch64 branch of shuffle_epi8_v): indices
16 and above yield 0. -/
def shuffle_epi8_v (vec mask : List Nat) : List Nat :=
  mask.map (fun m => if m < 16 then vec.getD m 0 else 0)

/-- Translation of the 32-bit ARM branch of shuffle_epi8_v: one do_byte
assignment of the element-wise emulation. -/
def do_byte (vec mask : List Nat) (i : Nat) : Nat :=
  if mask.getD i 0 &&& 0x80 = 0 then vec.getD (mask.getD i 0 &&& 0x0F) 0 else 0

/-- Translation of the 32-bit ARM branch of shuffle_epi8_v: the out
vector starts as zeros and do_byte is invoked for positions 0 through 15. -/
def shuffle_epi8_v_arm (vec mask : List Nat) : List Nat :=
  [do_byte vec mask 0, do_byte vec mask 1, do_byte vec mask 2, do_byte vec mask 3,
   do_byte vec mask 4, do_byte vec mask 5, do_byte vec mask 6, do_byte vec mask 7,
   do_byte vec mask 8, do_byte vec mask 9, do_byte vec mask 10, do_byte vec mask 11,
   do_byte vec mask 12, do_byte vec mask 13, do_byte vec mask 14, do_byte vec mask 15]

/-- Translation of replicate_v128_v from src/galois_8_neon.rs (the
identity: NEON vectors are already 128-bit). -/
def replicate_v128_v (vec : List Nat) : List Nat := vec

/-- Translation of gal_mul_v from src/galois_8_neon.rs. -/
def gal_mul_v (low_mask_unpacked low_vector high_vector : List Nat)
    (modifier : List Nat → List Nat → List Nat) (in_x old : List Nat) : List Nat :=
  let low_input := and_v in_x low_mask_unpacked
  let in_x_shifted := srli_epi64_v in_x
  let high_input := and_v in_x_shifted low_mask_unpacked
  let mul_low_part := shuffle_epi8_v low_vector low_input
  let mul_high_part := shuffle_epi8_v high_vector high_input
  let new := xor_v mul_low_part mul_high_part
  modifier new old

/-- Translation of gal_mul_impl from src/galois_8_neon.rs; the vector
width is 16 bytes. -/
def gal_mul_impl (low high in_0 out : List Nat) (len : Nat)
    (modifier : List Nat → List Nat → List Nat) : List Nat × Nat :=
  let low_mask_unpacked := set1_epi8_v 0xf
  let low_vector128 := loadu_v128 low
  let high_vector128 := loadu_v128 high
  let low_vector := replicate_v128_v low_vector128
  let high_vector := replicate_v128_v high_vector128
  galMulLoop 16 (gal_mul_v low_mask_unpacked low_vector high_vector modifier)
    in_0 (len / 16) 0 out

/-- Translation of noop from src/galois_8_neon.rs. -/
def noop (new _old : List Nat) : List Nat := new

/-- Translation of gal_mul from src/galois_8_neon.rs. -/
def gal_mul (low high in_0 out : List Nat) (len : Nat) : List Nat × Nat :=
  gal_mul_impl low high in_0 out len noop

/-- Translation of gal_mul_xor from src/galois_8_neon.rs. -/
def gal_mul_xor (low high in_0 out : List Nat) (len : Nat) : List Nat × Nat :=
  gal_mul_impl low high in_0 out len xor_v

end NEON

/-! ## The Field trait (src/lib.rs) -/

/-- Translation of the Field trait of src/lib.rs: a record of the
required members; the provided methods nth, mul_slice and mul_slice_add
are defined below from their default bodies. -/
structure Field (α : Type) where
  ORDER : Nat
  add : α → α → α
  mul : α → α → α
  div : α → α → α
  exp : α → Nat → α
  zero : α
  one : α
  nth_internal : Nat → α

/-- Translation of the default body of Field::nth: the source panics
when n is at least ORDER, modelled as none; otherwise it returns
nth_internal n. -/
def Field.nth (F : Field α) (n : Nat) : Option α :=
  if n ≥ F.ORDER then none else some (F.nth_internal n)

/-- Translation of the default body of Field::mul_slice: the assert_eq
on the lengths is modelled as none on mismatch; the loop writes each
output position from the corresponding input position. -/
def Field.mul_slice (F : Field α) (elem : α) (input out : List α) : Option (List α) :=
  if input.length = out.length then
    some (List.zipWith (fun i _o => F.mul elem i) input out)
  else none

/-- Translation of the default body of Field::mul_slice_add: each output
position is replaced by add of its old value and the product. -/
def Field.mul_slice_add (F : Field α) (elem : α) (input out : List α) : Option (List α) :=
  if input.length = out.length then
    some (List.zipWith (fun i o => F.add o (F.mul elem i)) input out)
  else none

/-- Modelled from the spec: the Error kinds enumeration of section 6
(src/errors.rs is not among the sources; src/lib.rs only names
Error::IncorrectShardSize). -/
inductive Error where
  | TooFewShards
  | TooManyShards
  | EmptyShard
  | IncorrectShardSize
  | InvalidShardFlags
  | InvalidIndex
  | LeftoverShards
  | SingularMatrix
deriving DecidableEq

/-- The result alias of src/lib.rs: Result of T with error type Result
of T and Error, so a value is ok buffer, error (ok buffer), or
error (error e). -/
abbrev RSResult (T : Type) := Except (Except Error T) T

/-! ## ReconstructShard for Option (src/lib.rs) -/

/-- Translation of len for the Option shard form. -/
def optLen (self : Option (List α)) : Option Nat :=
  self.map List.length

/-- Translation of the default is_empty body: len is none. -/
def optIsEmpty (self : Option (List α)) : Bool :=
  (optLen self).isNone

/-- Translation of get for the Option shard form. -/
def optGet (self : Option (List α)) : Option (List α) :=
  self

/-- Translation of get_or_initialize for the Option shard form: records
whether self was some, inserts a zero-filled buffer of the requested
length when it was none, and yields ok of the buffer when it was some,
otherwise error (ok buffer). Returns the result together with the
updated shard. -/
def optGetOrInitialize (F : Field α) (self : Option (List α)) (len : Nat) :
    RSResult (List α) × Option (List α) :=
  let is_some := self.isSome
  let x := match self with
    | some b => b
    | none => List.replicate len F.zero
  (if is_some then Except.ok x else Except.error (Except.ok x), some x)

/-! ## ReconstructShard for pairs (src/lib.rs) -/

/-- Translation of len for the pair shard form: some length when the
flag is set, none otherwise. -/
def tupLen (self : List α × Bool) : Option Nat :=
  if self.2 then some self.1.length else none

/-- Translation of the default is_empty body for the pair shard form. -/
def tupIsEmpty (self : List α × Bool) : Bool :=
  (tupLen self).isNone

/-- Translation of get for the pair shard form. -/
def tupGet (self : List α × Bool) : Option (List α) :=
  if self.2 then some self.1 else none

/-- Translation of get_or_initialize for the pair shard form: when the
buffer length equals the request, yield ok of it if the flag is set,
error (ok of it) otherwise; on any length mismatch yield
error (error IncorrectShardSize). The shard itself is not changed. -/
def tupGetOrInitialize (self : List α × Bool) (len : Nat) :
    RSResult (List α) × (List α × Bool) :=
  let x := self.1
  (if x.length = len then
    if self.2 then Except.ok x else Except.error (Except.ok x)
   else Except.error (Except.error Error.IncorrectShardSize), self)

/-! ## Platform detection (src/platform.rs) -/

/-- The target architectures the conditional compilation in
src/platform.rs distinguishes. -/
inductive Arch where
  | x86
  | aarch64
  | arm
deriving DecidableEq

/-- The runtime or compile-time availability of the probed CPU
features; the static target_feature cfg branches and the runtime
is_feature_detected macros both reduce to availability of the feature. -/
structure CpuFeatures where
  avx512f : Bool
  avx2 : Bool
  sse3 : Bool
  neon : Bool
  v7 : Bool

/-- The cargo feature flags that suppress individual kernels. -/
structure BuildFlags where
  no_avx512 : Bool
  no_avx2 : Bool
  no_sse3 : Bool
  no_neon : Bool

/-- Translation of the Platform enumeration of src/platform.rs. -/
inductive Platform where
  | Portable
  | SSE3
  | AVX2
  | AVX512
  | NEON
deriving DecidableEq

/-- Translation of avx512_detected: false when the no_avx512 build flag
is set, otherwise the availability of avx512f. -/
def avx512_detected (flags : BuildFlags) (cpu : CpuFeatures) : Bool :=
  if flags.no_avx512 then false else cpu.avx512f

/-- Translation of avx2_detected. -/
def avx2_detected (flags : BuildFlags) (cpu : CpuFeatures) : Bool :=
  if flags.no_avx2 then false else cpu.avx2

/-- Translation of sse3_detected. -/
def sse3_detected (flags : BuildFlags) (cpu : CpuFeatures) : Bool :=
  if flags.no_sse3 then false else cpu.sse3

/-- Translation of neon_detected: false when the no_neon build flag is
set; on aarch64 the availability of neon; on 32-bit arm the
availability of both neon and v7; false on other architectures. -/
def neon_detected (arch : Arch) (flags : BuildFlags) (cpu : CpuFeatures) : Bool :=
  if flags.no_neon then false
  else match arch with
    | Arch.aarch64 => cpu.neon
    | Arch.arm => cpu.neon && cpu.v7
    | Arch.x86 => false

/-- Translation of Platform::detect: the x86 block probes avx512, avx2,
sse3 in that order; the arm block probes neon; otherwise Portable. -/
def Platform.detect (arch : Arch) (flags : BuildFlags) (cpu : CpuFeatures) : Platform :=
  match arch with
  | Arch.x86 =>
    if avx512_detected flags cpu then Platform.AVX512
    else if avx2_detected flags cpu then Platform.AVX2
    else if sse3_detected flags cpu then Platform.SSE3
    else Platform.Portable
  | Arch.aarch64 =>
    if neon_detected Arch.aarch64 flags cpu then Platform.NEON else Platform.Portable
  | Arch.arm =>
    if neon_detected Arch.arm flags cpu then Platform.NEON else Platform.Portable

/-- The nibble-table reference definition of multiplication by the
constant encoded in the two 16-entry tables: the high table indexed by
the high nibble XOR the low table indexed by the low nibble. -/
def specByte (tl th : List Nat) (b : Nat) : Nat :=
  tl.getD (b &&& 0x0F) 0 ^^^ th.getD (b >>> 4) 0

/-- A small concrete instance of the Field record (arithmetic modulo 2),
used to instantiate universally quantified theorems at concrete inputs. -/
def natF : Field Nat where
  ORDER := 2
  add := fun a b => (a + b) % 2
  mul := fun a b => a * b % 2
  div := fun a _b => a
  exp := fun a _n => a
  zero := 0
  one := 1
  nth_internal := fun n => n % 2

/-- A concrete 16-entry low-nibble table used to instantiate kernel
theorems at concrete inputs. -/
def wlow : List Nat := [0, 3, 6, 5, 12, 15, 10, 9, 24, 27, 30, 29, 20, 23, 18, 17]

/-- A concrete 16-entry high-nibble table used to instantiate kernel
theorems at concrete inputs. -/
def whigh : List Nat := [0, 7, 14, 9, 28, 27, 18, 21, 56, 63, 54, 49, 44, 43, 34, 37]

/-- A concrete 64-byte input buffer. -/
def win : List Nat := List.replicate 64 7

/-- A concrete 64-byte output buffer. -/
def wout : List Nat := List.replicate 64 9

/-- Concrete build flags with no kernel suppressed. -/
def bf0 : BuildFlags := ⟨false, false, false, false⟩

/-- Concrete CPU features with everything available. -/
def cf0 : CpuFeatures := ⟨true, true, true, true, true⟩

/-! ## Proof layer -/

/-! ## Generic list access helpers (getD with explicit default) -/

theorem getD_append_lt {a b : List Nat} {j : Nat} (d : Nat) (h : j < a.length) :
    (a ++ b).getD j d = a.getD j d := by
  induction a generalizing j with
  | nil => simp at h
  | cons x xs ih =>
    cases j with
    | zero => simp [List.getD]
    | succ j =>
      simp only [List.cons_append, List.getD_cons_succ]
      exact ih (by simpa using h)

theorem getD_append_ge {a b : List Nat} {j : Nat} (d : Nat) (h : a.length ≤ j) :
    (a ++ b).getD j d = b.getD (j - a.length) d := by
  induction a generalizing j with
  | nil => simp
  | cons x xs ih =>
    cases j with
    | zero => simp at h
    | succ j =>
      simp only [List.cons_append, List.getD_cons_succ, List.length_cons]
      rw [ih (by simpa using h)]
      simp [Nat.succ_sub_succ]

theorem getD_drop (l : List Nat) (n j d : Nat) :
    (l.drop n).getD j d = l.getD (n + j) d := by
  induction n generalizing l with
  | zero => simp
  | succ n ih =>
    cases l with
    | nil => simp [List.getD]
    | cons x xs =>
      simp only [List.drop_succ_cons]
      rw [ih]
      simp [Nat.succ_add, List.getD_cons_succ]

theorem getD_take {l : List Nat} {n j : Nat} (d : Nat) (h : j < n) :
    (l.take n).getD j d = l.getD j d := by
  induction l generalizing n j with
  | nil => simp
  | cons x xs ih =>
    cases n with
    | zero => omega
    | succ n =>
      cases j with
      | zero => simp
      | succ j =>
        simp only [List.take_succ_cons, List.getD_cons_succ]
        exact ih (by omega)

theorem getD_map {l : List Nat} {j : Nat} (f : Nat → Nat) (d e : Nat)
    (h : j < l.length) : (l.map f).getD j d = f (l.getD j e) := by
  induction l generalizing j with
  | nil => simp at h
  | cons x xs ih =>
    cases j with
    | zero => simp
    | succ j =>
      simp only [List.map_cons, List.getD_cons_succ]
      exact ih (by simpa using h)

theorem getD_zipWith {a b : List Nat} {j : Nat} (f : Nat → Nat → Nat) (d : Nat)
    (ha : j < a.length) (hb : j < b.length) :
    (List.zipWith f a b).getD j d = f (a.getD j d) (b.getD j d) := by
  induction a generalizing b j with
  | nil => simp at ha
  | cons x xs ih =>
    cases b with
    | nil => simp at hb
    | cons y ys =>
      cases j with
      | zero => simp
      | succ j =>
        simp only [List.zipWith_cons_cons, List.getD_cons_succ]
        exact ih (by simpa using ha) (by simpa using hb)

theorem getD_of_length_le {l : List Nat} {j : Nat} (d : Nat) (h : l.length ≤ j) :
    l.getD j d = d := by
  induction l generalizing j with
  | nil => simp [List.getD]
  | cons x xs ih =>
    cases j with
    | zero => simp at h
    | succ j =>
      simp only [List.getD_cons_succ]
      exact ih (by simpa using h)

/-! ## Byte-level bit manipulation helpers -/

theorem and15_eq_mod (n : Nat) : n &&& 15 = n % 16 := by
  have h := Nat.and_pow_two_sub_one_eq_mod n 4
  norm_num at h
  exact h

theorem and15_lt (n : Nat) : n &&& 15 < 16 := by
  have := Nat.and_le_right (n := n) (m := 15)
  omega

theorem lt16_and15 {m : Nat} (h : m < 16) : m &&& 15 = m := by
  rw [and15_eq_mod]
  omega

theorem lt16_and128 {m : Nat} (h : m < 16) : m &&& 128 = 0 := by
  interval_cases m <;> rfl

theorem shiftRight4_eq_div (n : Nat) : n >>> 4 = n / 16 := by
  rw [Nat.shiftRight_eq_div_pow]

theorem shiftRight4_lt {n : Nat} (h : n < 256) : n >>> 4 < 16 := by
  rw [shiftRight4_eq_div]
  omega

/-- After a 64-bit-lane shift right by 4 and a byte-wise AND with 0x0F,
each byte position holds exactly the high nibble of the original byte at
that position: the bits leaking in from the neighbouring byte are masked
away. -/
theorem srliLane4_and15 (a0 a1 a2 a3 a4 a5 a6 a7 : Nat)
    (h0 : a0 < 256) (h1 : a1 < 256) (h2 : a2 < 256) (h3 : a3 < 256)
    (h4 : a4 < 256) (h5 : a5 < 256) (h6 : a6 < 256) (h7 : a7 < 256) :
    (srliLane4 [a0, a1, a2, a3, a4, a5, a6, a7]).map (fun b => b &&& 15) =
      [a0 >>> 4, a1 >>> 4, a2 >>> 4, a3 >>> 4, a4 >>> 4, a5 >>> 4, a6 >>> 4, a7 >>> 4] := by
  simp only [srliLane4, u64ofLE, u64toLE, List.map_cons, List.map_nil,
    and15_eq_mod, shiftRight4_eq_div, Nat.shiftRight_eq_div_pow]
  norm_num
  refine ⟨?_, ?_, ?_, ?_, ?_, ?_, ?_, ?_⟩ <;> omega

/-! ## List surgery lemmas -/

theorem zipWith_and_replicate {l : List Nat} {n : Nat} (c : Nat) (h : l.length ≤ n) :
    List.zipWith (fun x y => x &&& y) l (List.replicate n c) = l.map (fun x => x &&& c) := by
  induction l generalizing n with
  | nil => simp
  | cons x xs ih =>
    cases n with
    | zero => simp at h
    | succ n =>
      simp only [List.replicate_succ, List.zipWith_cons_cons, List.map_cons]
      rw [ih (by simpa using h)]

theorem zipWith_map_same (h : Nat → Nat → Nat) (f g : Nat → Nat) (l : List Nat) :
    List.zipWith h (l.map f) (l.map g) = l.map (fun b => h (f b) (g b)) := by
  induction l with
  | nil => simp
  | cons x xs ih => simp [ih]

theorem zipWith_const_left {l o : List Nat} (g : Nat → Nat) (h : l.length = o.length) :
    List.zipWith (fun a _ => g a) l o = l.map g := by
  induction l generalizing o with
  | nil => simp
  | cons x xs ih =>
    cases o with
    | nil => simp at h
    | cons y ys => simp [ih (by simpa using h)]

theorem exists_len8 {c : List Nat} (h : c.length = 8) :
    ∃ a0 a1 a2 a3 a4 a5 a6 a7, c = [a0, a1, a2, a3, a4, a5, a6, a7] := by
  rcases c with _|⟨a0,_|⟨a1,_|⟨a2,_|⟨a3,_|⟨a4,_|⟨a5,_|⟨a6,_|⟨a7,rest⟩⟩⟩⟩⟩⟩⟩⟩ <;>
    simp only [List.length_cons, List.length_nil] at h <;> try omega
  have hr : rest = [] := List.length_eq_zero.mp (by omega)
  subst hr
  exact ⟨a0, a1, a2, a3, a4, a5, a6, a7, rfl⟩

theorem mapChunks8_nil (f : List Nat → List Nat) : mapChunks8 f [] = [] := by
  rw [mapChunks8]
  simp

theorem mapChunks8_peel (f : List Nat → List Nat) {c : List Nat} (rest : List Nat)
    (hc : c.length = 8) : mapChunks8 f (c ++ rest) = f c ++ mapChunks8 f rest := by
  rw [mapChunks8]
  rw [if_neg (by intro he; have := congrArg List.length he; simp [hc] at this)]
  rw [List.take_left' hc, List.drop_left' hc]

theorem mapChunks8_of_len8 (f : List Nat → List Nat) {c : List Nat} (hc : c.length = 8) :
    mapChunks8 f c = f c := by
  have := mapChunks8_peel f [] hc
  simpa [mapChunks8_nil] using this

theorem zipChunks16_nil (f : List Nat → List Nat → List Nat) (b : List Nat) :
    zipChunks16 f [] b = [] := by
  rw [zipChunks16]
  simp

theorem zipChunks16_peel (f : List Nat → List Nat → List Nat) {a b : List Nat}
    (ar br : List Nat) (ha : a.length = 16) (hb : b.length = 16) :
    zipChunks16 f (a ++ ar) (b ++ br) = f a b ++ zipChunks16 f ar br := by
  rw [zipChunks16]
  rw [if_neg (by intro he; have := congrArg List.length he; simp [ha] at this)]
  rw [List.take_left' ha, List.drop_left' ha, List.take_left' hb, List.drop_left' hb]

theorem zipChunks16_single (f : List Nat → List Nat → List Nat) {a b : List Nat}
    (ha : a.length = 16) (hb : b.length = 16) : zipChunks16 f a b = f a b := by
  have := zipChunks16_peel f [] [] ha hb
  simpa [zipChunks16_nil] using this

theorem exists_split32 {x : List Nat} (hx : x.length = 32) :
    ∃ c0 c1 c2 c3, x = c0 ++ (c1 ++ (c2 ++ c3)) ∧
      c0.length = 8 ∧ c1.length = 8 ∧ c2.length = 8 ∧ c3.length = 8 := by
  refine ⟨x.take 8, (x.drop 8).take 8, ((x.drop 8).drop 8).take 8,
    ((x.drop 8).drop 8).drop 8, ?_, ?_, ?_, ?_, ?_⟩
  · conv_rhs => rw [List.take_append_drop, List.take_append_drop, List.take_append_drop]
  all_goals simp [List.length_take, List.length_drop, hx]

theorem exists_split64 {x : List Nat} (hx : x.length = 64) :
    ∃ c0 c1 c2 c3 c4 c5 c6 c7,
      x = c0 ++ (c1 ++ (c2 ++ (c3 ++ (c4 ++ (c5 ++ (c6 ++ c7)))))) ∧
      c0.length = 8 ∧ c1.length = 8 ∧ c2.length = 8 ∧ c3.length = 8 ∧
      c4.length = 8 ∧ c5.length = 8 ∧ c6.length = 8 ∧ c7.length = 8 := by
  refine ⟨x.take 8, (x.drop 8).take 8, ((x.drop 8).drop 8).take 8,
    (((x.drop 8).drop 8).drop 8).take 8,
    ((((x.drop 8).drop 8).drop 8).drop 8).take 8,
    (((((x.drop 8).drop 8).drop 8).drop 8).drop 8).take 8,
    ((((((x.drop 8).drop 8).drop 8).drop 8).drop 8).drop 8).take 8,
    ((((((x.drop 8).drop 8).drop 8).drop 8).drop 8).drop 8).drop 8,
    ?_, ?_, ?_, ?_, ?_, ?_, ?_, ?_, ?_⟩
  · conv_rhs => rw [List.take_append_drop, List.take_append_drop, List.take_append_drop,
      List.take_append_drop, List.take_append_drop, List.take_append_drop,
      List.take_append_drop]
  all_goals simp [List.length_take, List.length_drop, hx]

/-! ## Shuffle byte lemmas -/

theorem shufByte_and15 (t : List Nat) (a : Nat) :
    shufByte t (a &&& 15) = t.getD (a &&& 15) 0 := by
  unfold shufByte
  have h1 : a &&& 15 &&& 128 = 0 := by
    rw [Nat.and_assoc, show (15 &&& 128 : Nat) = 0 by rfl, Nat.and_zero]
  have h2 : a &&& 15 &&& 15 = a &&& 15 := by
    rw [Nat.and_assoc, show (15 &&& 15 : Nat) = 15 by rfl]
  simp [h1, h2]

theorem shufByte_lt16 (t : List Nat) {m : Nat} (h : m < 16) :
    shufByte t m = t.getD m 0 := by
  unfold shufByte
  rw [lt16_and128 h, lt16_and15 h]
  simp

/-- One 64-bit lane of the x86 nibble-extraction data path feeding the
two shuffles, XORed together, equals the reference nibble-table map. -/
theorem lane8_eq (tl th : List Nat) {c : List Nat} (hc : c.length = 8)
    (hb : ∀ b ∈ c, b < 256) :
    List.zipWith (fun x y => x ^^^ y)
      (pshufb128 tl (c.map (fun b => b &&& 15)))
      (pshufb128 th ((srliLane4 c).map (fun b => b &&& 15)))
    = c.map (specByte tl th) := by
  obtain ⟨a0, a1, a2, a3, a4, a5, a6, a7, rfl⟩ := exists_len8 hc
  have h0 : a0 < 256 := hb _ (by simp)
  have h1 : a1 < 256 := hb _ (by simp)
  have h2 : a2 < 256 := hb _ (by simp)
  have h3 : a3 < 256 := hb _ (by simp)
  have h4 : a4 < 256 := hb _ (by simp)
  have h5 : a5 < 256 := hb _ (by simp)
  have h6 : a6 < 256 := hb _ (by simp)
  have h7 : a7 < 256 := hb _ (by simp)
  rw [srliLane4_and15 _ _ _ _ _ _ _ _ h0 h1 h2 h3 h4 h5 h6 h7]
  simp only [pshufb128, List.map_cons, List.map_nil, List.zipWith_cons_cons,
    List.zipWith_nil_right, shufByte_and15,
    shufByte_lt16 th (shiftRight4_lt h0), shufByte_lt16 th (shiftRight4_lt h1),
    shufByte_lt16 th (shiftRight4_lt h2), shufByte_lt16 th (shiftRight4_lt h3),
    shufByte_lt16 th (shiftRight4_lt h4), shufByte_lt16 th (shiftRight4_lt h5),
    shufByte_lt16 th (shiftRight4_lt h6), shufByte_lt16 th (shiftRight4_lt h7),
    specByte]

theorem pshufb128_append (t a b : List Nat) :
    pshufb128 t (a ++ b) = pshufb128 t a ++ pshufb128 t b := by
  simp [pshufb128]

theorem length_pshufb128 (t m : List Nat) : (pshufb128 t m).length = m.length := by
  simp [pshufb128]

theorem length_srliLane4 (c : List Nat) : (srliLane4 c).length = 8 := rfl

/-- One 128-bit lane (two 64-bit lanes) of the x86 data path equals the
reference nibble-table map. -/
theorem lane16_eq (tl th : List Nat) {ca cb : List Nat} (la : ca.length = 8)
    (lb : cb.length = 8) (ba : ∀ b ∈ ca, b < 256) (bb : ∀ b ∈ cb, b < 256) :
    List.zipWith (fun x y => x ^^^ y)
      (pshufb128 tl (ca.map (fun b => b &&& 15) ++ cb.map (fun b => b &&& 15)))
      (pshufb128 th ((srliLane4 ca).map (fun b => b &&& 15) ++
        (srliLane4 cb).map (fun b => b &&& 15)))
    = (ca ++ cb).map (specByte tl th) := by
  rw [pshufb128_append, pshufb128_append,
    List.zipWith_append _ _ _ _ _
      (by simp [length_pshufb128, length_srliLane4, la]),
    lane8_eq tl th la ba, lane8_eq tl th lb bb, ← List.map_append]

/-- The full 32-byte AVX2 data path of gal_mul_v equals the per-byte
nibble-table reference map fed through the modifier. -/
theorem avx2_gal_mul_v_eq (tl th : List Nat) (htl : tl.length = 16) (hth : th.length = 16)
    (modifier : List Nat → List Nat → List Nat) {x : List Nat} (old : List Nat)
    (hx : x.length = 32) (hb : ∀ b ∈ x, b < 256) :
    AVX2.gal_mul_v (AVX2.set1_epi8_v 0xf) (AVX2.replicate_v128_v tl)
      (AVX2.replicate_v128_v th) modifier x old
    = modifier (x.map (specByte tl th)) old := by
  obtain ⟨c0, c1, c2, c3, rfl, l0, l1, l2, l3⟩ := exists_split32 hx
  have b0 : ∀ b ∈ c0, b < 256 := fun b h => hb b (by simp [h])
  have b1 : ∀ b ∈ c1, b < 256 := fun b h => hb b (by simp [h])
  have b2 : ∀ b ∈ c2, b < 256 := fun b h => hb b (by simp [h])
  have b3 : ∀ b ∈ c3, b < 256 := fun b h => hb b (by simp [h])
  have hlow : AVX2.and_v (c0 ++ (c1 ++ (c2 ++ c3))) (AVX2.set1_epi8_v 0xf)
      = (c0.map (fun b => b &&& 15) ++ c1.map (fun b => b &&& 15)) ++
        (c2.map (fun b => b &&& 15) ++ c3.map (fun b => b &&& 15)) := by
    unfold AVX2.and_v AVX2.set1_epi8_v
    rw [zipWith_and_replicate 15 (by simp [l0, l1, l2, l3])]
    simp [List.map_append, List.append_assoc]
  have hshift : AVX2.srli_epi64_v (c0 ++ (c1 ++ (c2 ++ c3)))
      = srliLane4 c0 ++ (srliLane4 c1 ++ (srliLane4 c2 ++ srliLane4 c3)) := by
    unfold AVX2.srli_epi64_v
    rw [mapChunks8_peel _ _ l0, mapChunks8_peel _ _ l1, mapChunks8_peel _ _ l2,
      mapChunks8_of_len8 _ l3]
  have hhigh : AVX2.and_v (AVX2.srli_epi64_v (c0 ++ (c1 ++ (c2 ++ c3))))
      (AVX2.set1_epi8_v 0xf)
      = ((srliLane4 c0).map (fun b => b &&& 15) ++ (srliLane4 c1).map (fun b => b &&& 15)) ++
        ((srliLane4 c2).map (fun b => b &&& 15) ++ (srliLane4 c3).map (fun b => b &&& 15)) := by
    rw [hshift]
    unfold AVX2.and_v AVX2.set1_epi8_v
    rw [zipWith_and_replicate 15 (by simp [length_srliLane4])]
    simp [List.map_append, List.append_assoc]
  have hmullow : AVX2.shuffle_epi8_v (AVX2.replicate_v128_v tl)
      ((c0.map (fun b => b &&& 15) ++ c1.map (fun b => b &&& 15)) ++
       (c2.map (fun b => b &&& 15) ++ c3.map (fun b => b &&& 15)))
      = (pshufb128 tl (c0.map (fun b => b &&& 15)) ++
         pshufb128 tl (c1.map (fun b => b &&& 15))) ++
        (pshufb128 tl (c2.map (fun b => b &&& 15)) ++
         pshufb128 tl (c3.map (fun b => b &&& 15))) := by
    unfold AVX2.shuffle_epi8_v AVX2.replicate_v128_v
    rw [zipChunks16_peel pshufb128 tl _ htl (by simp [l0, l1]),
      zipChunks16_single pshufb128 htl (by simp [l2, l3]),
      pshufb128_append, pshufb128_append]
  have hmulhigh : AVX2.shuffle_epi8_v (AVX2.replicate_v128_v th)
      (((srliLane4 c0).map (fun b => b &&& 15) ++ (srliLane4 c1).map (fun b => b &&& 15)) ++
       ((srliLane4 c2).map (fun b => b &&& 15) ++ (srliLane4 c3).map (fun b => b &&& 15)))
      = (pshufb128 th ((srliLane4 c0).map (fun b => b &&& 15)) ++
         pshufb128 th ((srliLane4 c1).map (fun b => b &&& 15))) ++
        (pshufb128 th ((srliLane4 c2).map (fun b => b &&& 15)) ++
         pshufb128 th ((srliLane4 c3).map (fun b => b &&& 15))) := by
    unfold AVX2.shuffle_epi8_v AVX2.replicate_v128_v
    rw [zipChunks16_peel pshufb128 th _ hth (by simp [length_srliLane4]),
      zipChunks16_single pshufb128 hth (by simp [length_srliLane4]),
      pshufb128_append, pshufb128_append]
  have hxor : AVX2.xor_v
      ((pshufb128 tl (c0.map (fun b => b &&& 15)) ++
        pshufb128 tl (c1.map (fun b => b &&& 15))) ++
       (pshufb128 tl (c2.map (fun b => b &&& 15)) ++
        pshufb128 tl (c3.map (fun b => b &&& 15))))
      ((pshufb128 th ((srliLane4 c0).map (fun b => b &&& 15)) ++
        pshufb128 th ((srliLane4 c1).map (fun b => b &&& 15))) ++
       (pshufb128 th ((srliLane4 c2).map (fun b => b &&& 15)) ++
        pshufb128 th ((srliLane4 c3).map (fun b => b &&& 15))))
      = (c0 ++ (c1 ++ (c2 ++ c3))).map (specByte tl th) := by
    unfold AVX2.xor_v
    rw [List.zipWith_append _ _ _ _ _
        (by simp [length_pshufb128, length_srliLane4, l0, l1]),
      List.zipWith_append _ _ _ _ _
        (by simp [length_pshufb128, length_srliLane4, l0]),
      List.zipWith_append _ _ _ _ _
        (by simp [length_pshufb128, length_srliLane4, l2]),
      lane8_eq tl th l0 b0, lane8_eq tl th l1 b1, lane8_eq tl th l2 b2,
      lane8_eq tl th l3 b3]
    simp [List.map_append, List.append_assoc]
  simp only [AVX2.gal_mul_v]
  rw [hlow, hhigh, hmullow, hmulhigh, hxor]

/-- The full 64-byte AVX512 data path of gal_mul_v equals the per-byte
nibble-table reference map fed through the modifier. -/
theorem avx512_gal_mul_v_eq (tl th : List Nat) (htl : tl.length = 16) (hth : th.length = 16)
    (modifier : List Nat → List Nat → List Nat) {x : List Nat} (old : List Nat)
    (hx : x.length = 64) (hb : ∀ b ∈ x, b < 256) :
    AVX512.gal_mul_v (AVX512.set1_epi8_v 0xf) (AVX512.replicate_v128_v tl)
      (AVX512.replicate_v128_v th) modifier x old
    = modifier (x.map (specByte tl th)) old := by
  obtain ⟨c0, c1, c2, c3, c4, c5, c6, c7, rfl, l0, l1, l2, l3, l4, l5, l6, l7⟩ :=
    exists_split64 hx
  have b0 : ∀ b ∈ c0, b < 256 := fun b h => hb b (by simp [h])
  have b1 : ∀ b ∈ c1, b < 256 := fun b h => hb b (by simp [h])
  have b2 : ∀ b ∈ c2, b < 256 := fun b h => hb b (by simp [h])
  have b3 : ∀ b ∈ c3, b < 256 := fun b h => hb b (by simp [h])
  have b4 : ∀ b ∈ c4, b < 256 := fun b h => hb b (by simp [h])
  have b5 : ∀ b ∈ c5, b < 256 := fun b h => hb b (by simp [h])
  have b6 : ∀ b ∈ c6, b < 256 := fun b h => hb b (by simp [h])
  have b7 : ∀ b ∈ c7, b < 256 := fun b h => hb b (by simp [h])
  have hlow : AVX512.and_v (c0 ++ (c1 ++ (c2 ++ (c3 ++ (c4 ++ (c5 ++ (c6 ++ c7)))))))
      (AVX512.set1_epi8_v 0xf)
      = (c0.map (fun b => b &&& 15) ++ c1.map (fun b => b &&& 15)) ++
        ((c2.map (fun b => b &&& 15) ++ c3.map (fun b => b &&& 15)) ++
         ((c4.map (fun b => b &&& 15) ++ c5.map (fun b => b &&& 15)) ++
          (c6.map (fun b => b &&& 15) ++ c7.map (fun b => b &&& 15)))) := by
    unfold AVX512.and_v AVX512.set1_epi8_v
    rw [zipWith_and_replicate 15 (by simp [l0, l1, l2, l3, l4, l5, l6, l7])]
    simp [List.map_append, List.append_assoc]
  have hshift : AVX512.srli_epi64_v (c0 ++ (c1 ++ (c2 ++ (c3 ++ (c4 ++ (c5 ++ (c6 ++ c7)))))))
      = srliLane4 c0 ++ (srliLane4 c1 ++ (srliLane4 c2 ++ (srliLane4 c3 ++
        (srliLane4 c4 ++ (srliLane4 c5 ++ (srliLane4 c6 ++ srliLane4 c7)))))) := by
    unfold AVX512.srli_epi64_v
    rw [mapChunks8_peel _ _ l0, mapChunks8_peel _ _ l1, mapChunks8_peel _ _ l2,
      mapChunks8_peel _ _ l3, mapChunks8_peel _ _ l4, mapChunks8_peel _ _ l5,
      mapChunks8_peel _ _ l6, mapChunks8_of_len8 _ l7]
  have hhigh : AVX512.and_v
      (AVX512.srli_epi64_v (c0 ++ (c1 ++ (c2 ++ (c3 ++ (c4 ++ (c5 ++ (c6 ++ c7))))))))
      (AVX512.set1_epi8_v 0xf)
      = ((srliLane4 c0).map (fun b => b &&& 15) ++ (srliLane4 c1).map (fun b => b &&& 15)) ++
        (((srliLane4 c2).map (fun b => b &&& 15) ++ (srliLane4 c3).map (fun b => b &&& 15)) ++
         (((srliLane4 c4).map (fun b => b &&& 15) ++ (srliLane4 c5).map (fun b => b &&& 15)) ++
          ((srliLane4 c6).map (fun b => b &&& 15) ++
           (srliLane4 c7).map (fun b => b &&& 15)))) := by
    rw [hshift]
    unfold AVX512.and_v AVX512.set1_epi8_v
    rw [zipWith_and_replicate 15 (by simp [length_srliLane4])]
    simp [List.map_append, List.append_assoc]
  have htab : ∀ t : List Nat, AVX512.replicate_v128_v t = t ++ (t ++ (t ++ t)) := by
    intro t
    simp [AVX512.replicate_v128_v, List.append_assoc]
  have hmullow : AVX512.shuffle_epi8_v (AVX512.replicate_v128_v tl)
      ((c0.map (fun b => b &&& 15) ++ c1.map (fun b => b &&& 15)) ++
        ((c2.map (fun b => b &&& 15) ++ c3.map (fun b => b &&& 15)) ++
         ((c4.map (fun b => b &&& 15) ++ c5.map (fun b => b &&& 15)) ++
          (c6.map (fun b => b &&& 15) ++ c7.map (fun b => b &&& 15)))))
      = pshufb128 tl (c0.map (fun b => b &&& 15) ++ c1.map (fun b => b &&& 15)) ++
        (pshufb128 tl (c2.map (fun b => b &&& 15) ++ c3.map (fun b => b &&& 15)) ++
         (pshufb128 tl (c4.map (fun b => b &&& 15) ++ c5.map (fun b => b &&& 15)) ++
          pshufb128 tl (c6.map (fun b => b &&& 15) ++ c7.map (fun b => b &&& 15)))) := by
    unfold AVX512.shuffle_epi8_v
    rw [htab tl,
      zipChunks16_peel pshufb128 _ _ htl (by simp [l0, l1]),
      zipChunks16_peel pshufb128 _ _ htl (by simp [l2, l3]),
      zipChunks16_peel pshufb128 _ _ htl (by simp [l4, l5]),
      zipChunks16_single pshufb128 htl (by simp [l6, l7])]
  have hmulhigh : AVX512.shuffle_epi8_v (AVX512.replicate_v128_v th)
      (((srliLane4 c0).map (fun b => b &&& 15) ++ (srliLane4 c1).map (fun b => b &&& 15)) ++
        (((srliLane4 c2).map (fun b => b &&& 15) ++ (srliLane4 c3).map (fun b => b &&& 15)) ++
         (((srliLane4 c4).map (fun b => b &&& 15) ++ (srliLane4 c5).map (fun b => b &&& 15)) ++
          ((srliLane4 c6).map (fun b => b &&& 15) ++
           (srliLane4 c7).map (fun b => b &&& 15)))))
      = pshufb128 th ((srliLane4 c0).map (fun b => b &&& 15) ++
          (srliLane4 c1).map (fun b => b &&& 15)) ++
        (pshufb128 th ((srliLane4 c2).map (fun b => b &&& 15) ++
          (srliLane4 c3).map (fun b => b &&& 15)) ++
         (pshufb128 th ((srliLane4 c4).map (fun b => b &&& 15) ++
           (srliLane4 c5).map (fun b => b &&& 15)) ++
          pshufb128 th ((srliLane4 c6).map (fun b => b &&& 15) ++
           (srliLane4 c7).map (fun b => b &&& 15)))) := by
    unfold AVX512.shuffle_epi8_v
    rw [htab th,
      zipChunks16_peel pshufb128 _ _ hth (by simp [length_srliLane4]),
      zipChunks16_peel pshufb128 _ _ hth (by simp [length_srliLane4]),
      zipChunks16_peel pshufb128 _ _ hth (by simp [length_srliLane4]),
      zipChunks16_single pshufb128 hth (by simp [length_srliLane4])]
  have hxor : AVX512.xor_v
      (pshufb128 tl (c0.map (fun b => b &&& 15) ++ c1.map (fun b => b &&& 15)) ++
        (pshufb128 tl (c2.map (fun b => b &&& 15) ++ c3.map (fun b => b &&& 15)) ++
         (pshufb128 tl (c4.map (fun b => b &&& 15) ++ c5.map (fun b => b &&& 15)) ++
          pshufb128 tl (c6.map (fun b => b &&& 15) ++ c7.map (fun b => b &&& 15)))))
      (pshufb128 th ((srliLane4 c0).map (fun b => b &&& 15) ++
          (srliLane4 c1).map (fun b => b &&& 15)) ++
        (pshufb128 th ((srliLane4 c2).map (fun b => b &&& 15) ++
          (srliLane4 c3).map (fun b => b &&& 15)) ++
         (pshufb128 th ((srliLane4 c4).map (fun b => b &&& 15) ++
           (srliLane4 c5).map (fun b => b &&& 15)) ++
          pshufb128 th ((srliLane4 c6).map (fun b => b &&& 15) ++
           (srliLane4 c7).map (fun b => b &&& 15)))))
      = (c0 ++ (c1 ++ (c2 ++ (c3 ++ (c4 ++ (c5 ++ (c6 ++ c7))))))).map
          (specByte tl th) := by
    unfold AVX512.xor_v
    rw [List.zipWith_append _ _ _ _ _
        (by simp [length_pshufb128, length_srliLane4, l0, l1]),
      List.zipWith_append _ _ _ _ _
        (by simp [length_pshufb128, length_srliLane4, l2, l3]),
      List.zipWith_append _ _ _ _ _
        (by simp [length_pshufb128, length_srliLane4, l4, l5]),
      lane16_eq tl th l0 l1 b0 b1, lane16_eq tl th l2 l3 b2 b3,
      lane16_eq tl th l4 l5 b4 b5, lane16_eq tl th l6 l7 b6 b7]
    simp [List.map_append, List.append_assoc]
  simp only [AVX512.gal_mul_v]
  rw [hlow, hhigh, hmullow, hmulhigh, hxor]

/-- The full 16-byte NEON data path of gal_mul_v equals the per-byte
nibble-table reference map fed through the modifier. The NEON path takes
high nibbles with a per-byte shift and uses the table-lookup shuffle with
out-of-range indices mapped to zero. -/
theorem neon_gal_mul_v_eq (tl th : List Nat)
    (modifier : List Nat → List Nat → List Nat) {x : List Nat} (old : List Nat)
    (hx : x.length = 16) (hb : ∀ b ∈ x, b < 256) :
    NEON.gal_mul_v (NEON.set1_epi8_v 0xf) (NEON.replicate_v128_v tl)
      (NEON.replicate_v128_v th) modifier x old
    = modifier (x.map (specByte tl th)) old := by
  have hlow : NEON.and_v x (NEON.set1_epi8_v 0xf) = x.map (fun b => b &&& 15) := by
    unfold NEON.and_v NEON.set1_epi8_v
    exact zipWith_and_replicate 15 (by simp [hx])
  have hhigh : NEON.and_v (NEON.srli_epi64_v x) (NEON.set1_epi8_v 0xf)
      = x.map (fun b => b >>> 4 &&& 15) := by
    unfold NEON.and_v NEON.set1_epi8_v NEON.srli_epi64_v
    rw [zipWith_and_replicate 15 (by simp [hx]), List.map_map]
    rfl
  have hml : NEON.shuffle_epi8_v tl (x.map (fun b => b &&& 15))
      = x.map (fun b => tl.getD (b &&& 15) 0) := by
    unfold NEON.shuffle_epi8_v
    rw [List.map_map]
    refine List.map_congr_left ?_
    intro b _
    simp [Function.comp, and15_lt b]
  have hmh : NEON.shuffle_epi8_v th (x.map (fun b => b >>> 4 &&& 15))
      = x.map (fun b => th.getD (b >>> 4) 0) := by
    unfold NEON.shuffle_epi8_v
    rw [List.map_map]
    refine List.map_congr_left ?_
    intro b hbm
    have h4 : b >>> 4 < 16 := shiftRight4_lt (hb b hbm)
    simp [Function.comp, lt16_and15 h4, h4]
  have hxor : NEON.xor_v (x.map (fun b => tl.getD (b &&& 15) 0))
      (x.map (fun b => th.getD (b >>> 4) 0)) = x.map (specByte tl th) := by
    unfold NEON.xor_v
    rw [zipWith_map_same]
    rfl
  simp only [NEON.gal_mul_v, NEON.replicate_v128_v]
  rw [hlow, hhigh, hml, hmh, hxor]

/-! ## storeAt lemmas -/

theorem storeAt_length {out v : List Nat} {off : Nat} (hs : off + v.length ≤ out.length) :
    (storeAt out off v).length = out.length := by
  simp only [storeAt, List.length_append, List.length_take, List.length_drop]
  omega

theorem storeAt_getD_lt {out v : List Nat} {off j : Nat}
    (hs : off + v.length ≤ out.length) (hj : j < off) :
    (storeAt out off v).getD j 0 = out.getD j 0 := by
  unfold storeAt
  have hto : (out.take off).length = off := by simp only [List.length_take]; omega
  rw [getD_append_lt 0 (by simp only [List.length_append, hto]; omega),
    getD_append_lt 0 (by omega)]
  exact getD_take 0 hj

theorem storeAt_getD_mid {out v : List Nat} {off j : Nat}
    (hs : off + v.length ≤ out.length) (hj1 : off ≤ j) (hj2 : j < off + v.length) :
    (storeAt out off v).getD j 0 = v.getD (j - off) 0 := by
  unfold storeAt
  have hto : (out.take off).length = off := by simp only [List.length_take]; omega
  rw [getD_append_lt 0 (by simp only [List.length_append, hto]; omega),
    getD_append_ge 0 (by omega), hto]

theorem storeAt_getD_ge {out v : List Nat} {off j : Nat}
    (hs : off + v.length ≤ out.length) (hj : off + v.length ≤ j) :
    (storeAt out off v).getD j 0 = out.getD j 0 := by
  unfold storeAt
  have hto : (out.take off).length = off := by simp only [List.length_take]; omega
  rw [getD_append_ge 0 (by simp only [List.length_append, hto]; omega), getD_drop]
  simp only [List.length_append, hto]
  congr 1
  omega

/-! ## Loop lemmas -/

/-- The loop always returns done plus W times the iteration count: the
returned byte count is independent of the buffer contents. -/
theorem galMulLoop_snd (W : Nat) (step : List Nat → List Nat → List Nat)
    (in_0 : List Nat) :
    ∀ (k done : Nat) (out : List Nat),
      (galMulLoop W step in_0 k done out).2 = done + W * k := by
  intro k
  induction k with
  | zero => intro done out; simp [galMulLoop]
  | succ k ih =>
    intro done out
    rw [galMulLoop, ih, Nat.mul_succ]
    omega

/-- Main loop invariant: when each chunk step computes the byte-wise
function g of the input chunk and the old output chunk, the loop leaves
the output length unchanged, leaves every byte outside the written window
unchanged, and writes g of the corresponding input and old output byte at
every position inside the window. -/
theorem galMulLoop_spec (W : Nat) (step : List Nat → List Nat → List Nat)
    (g : Nat → Nat → Nat) (in_0 : List Nat)
    (hstep : ∀ x o, x.length = W → o.length = W → (∀ b ∈ x, b < 256) →
      step x o = List.zipWith g x o)
    (hin : ∀ b ∈ in_0, b < 256) :
    ∀ (k done : Nat) (out : List Nat),
      done + W * k ≤ in_0.length → done + W * k ≤ out.length →
      (galMulLoop W step in_0 k done out).1.length = out.length ∧
      (∀ j, j < done ∨ done + W * k ≤ j →
        (galMulLoop W step in_0 k done out).1.getD j 0 = out.getD j 0) ∧
      (∀ j, done ≤ j → j < done + W * k →
        (galMulLoop W step in_0 k done out).1.getD j 0 =
          g (in_0.getD j 0) (out.getD j 0)) := by
  intro k
  induction k with
  | zero =>
    intro done out _ _
    refine ⟨rfl, fun j _ => rfl, fun j hj1 hj2 => ?_⟩
    omega
  | succ k ih =>
    intro done out h1 h2
    simp only [Nat.mul_succ] at h1 h2 ⊢
    have hxlen : ((in_0.drop done).take W).length = W := by
      simp only [List.length_take, List.length_drop]
      omega
    have holen : ((out.drop done).take W).length = W := by
      simp only [List.length_take, List.length_drop]
      omega
    have hxb : ∀ b ∈ (in_0.drop done).take W, b < 256 :=
      fun b hbm => hin b (List.drop_subset done in_0 (List.take_subset W _ hbm))
    have hres : step ((in_0.drop done).take W) ((out.drop done).take W)
        = List.zipWith g ((in_0.drop done).take W) ((out.drop done).take W) :=
      hstep _ _ hxlen holen hxb
    have hreslen : (step ((in_0.drop done).take W) ((out.drop done).take W)).length = W := by
      rw [hres]
      simp [hxlen, holen]
    have hs : done + (step ((in_0.drop done).take W) ((out.drop done).take W)).length
        ≤ out.length := by
      rw [hreslen]
      omega
    have hlen2 : (storeAt out done
        (step ((in_0.drop done).take W) ((out.drop done).take W))).length = out.length :=
      storeAt_length hs
    obtain ⟨ihlen, ihout, ihmid⟩ := ih (done + W)
      (storeAt out done (step ((in_0.drop done).take W) ((out.drop done).take W)))
      (by omega) (by rw [hlen2]; omega)
    rw [galMulLoop]
    refine ⟨by rw [ihlen, hlen2], ?_, ?_⟩
    · intro j hj
      rcases hj with hj | hj
      · rw [ihout j (Or.inl (by omega)), storeAt_getD_lt hs hj]
      · rw [ihout j (Or.inr (by omega)), storeAt_getD_ge hs (by omega)]
    · intro j hj1 hj2
      by_cases hj : j < done + W
      · rw [ihout j (Or.inl hj), storeAt_getD_mid hs hj1 (by omega), hres,
          getD_zipWith g 0 (by rw [hxlen]; omega) (by rw [holen]; omega),
          getD_take 0 (by omega), getD_take 0 (by omega), getD_drop, getD_drop]
        congr 2 <;> omega
      · rw [ihmid j (by omega) (by omega), storeAt_getD_ge hs (by omega)]

/-! ## Frame lemmas: bytes past the processed window are never written -/

theorem zipChunks16_pshufb_le_aux :
    ∀ (n : Nat) (a b : List Nat), a.length ≤ n →
      (zipChunks16 pshufb128 a b).length ≤ b.length := by
  intro n
  induction n with
  | zero =>
    intro a b ha
    have he : a = [] := List.length_eq_zero.mp (by omega)
    subst he
    rw [zipChunks16_nil]
    simp
  | succ n ih =>
    intro a b ha
    by_cases he : a = []
    · subst he
      rw [zipChunks16_nil]
      simp
    · rw [zipChunks16, if_neg he]
      have h1 := ih (a.drop 16) (b.drop 16)
        (by
          simp only [List.length_drop]
          have : 0 < a.length := List.length_pos.mpr he
          omega)
      simp only [List.length_append, length_pshufb128, List.length_take,
        List.length_drop] at h1 ⊢
      omega

theorem zipChunks16_pshufb_le (a b : List Nat) :
    (zipChunks16 pshufb128 a b).length ≤ b.length :=
  zipChunks16_pshufb_le_aux a.length a b le_rfl

theorem avx2_step_length_le (tl th : List Nat)
    (modifier : List Nat → List Nat → List Nat)
    (hmod : ∀ n o, (modifier n o).length ≤ n.length)
    (x o : List Nat) (hx : x.length ≤ 32) :
    (AVX2.gal_mul_v (AVX2.set1_epi8_v 0xf) tl th modifier x o).length ≤ 32 := by
  simp only [AVX2.gal_mul_v]
  refine le_trans (hmod _ _) ?_
  have hA := zipChunks16_pshufb_le tl
    (AVX2.and_v x (AVX2.set1_epi8_v 0xf))
  simp only [AVX2.xor_v, AVX2.shuffle_epi8_v, AVX2.and_v, AVX2.set1_epi8_v,
    List.length_zipWith, List.length_replicate] at hA ⊢
  omega

theorem avx512_step_length_le (tl th : List Nat)
    (modifier : List Nat → List Nat → List Nat)
    (hmod : ∀ n o, (modifier n o).length ≤ n.length)
    (x o : List Nat) (hx : x.length ≤ 64) :
    (AVX512.gal_mul_v (AVX512.set1_epi8_v 0xf) tl th modifier x o).length ≤ 64 := by
  simp only [AVX512.gal_mul_v]
  refine le_trans (hmod _ _) ?_
  have hA := zipChunks16_pshufb_le tl
    (AVX512.and_v x (AVX512.set1_epi8_v 0xf))
  simp only [AVX512.xor_v, AVX512.shuffle_epi8_v, AVX512.and_v, AVX512.set1_epi8_v,
    List.length_zipWith, List.length_replicate] at hA ⊢
  omega

theorem neon_step_length_le (tl th : List Nat)
    (modifier : List Nat → List Nat → List Nat)
    (hmod : ∀ n o, (modifier n o).length ≤ n.length)
    (x o : List Nat) (hx : x.length ≤ 16) :
    (NEON.gal_mul_v (NEON.set1_epi8_v 0xf) tl th modifier x o).length ≤ 16 := by
  simp only [NEON.gal_mul_v]
  refine le_trans (hmod _ _) ?_
  simp only [NEON.xor_v, NEON.shuffle_epi8_v, NEON.and_v, NEON.set1_epi8_v,
    NEON.srli_epi64_v, List.length_zipWith, List.length_replicate, List.length_map]
  omega

/-- Frame loop invariant: whatever the chunk step computes, as long as
its output never exceeds W bytes, the loop preserves the output length
and every byte at or past the processed window. -/
theorem galMulLoop_frame (W : Nat) (step : List Nat → List Nat → List Nat)
    (in_0 : List Nat)
    (hsteplen : ∀ x o, x.length ≤ W → (step x o).length ≤ W) :
    ∀ (k done : Nat) (out : List Nat),
      done + W * k ≤ out.length →
      (galMulLoop W step in_0 k done out).1.length = out.length ∧
      (∀ j, done + W * k ≤ j →
        (galMulLoop W step in_0 k done out).1.getD j 0 = out.getD j 0) := by
  intro k
  induction k with
  | zero => intro done out _; exact ⟨rfl, fun j _ => rfl⟩
  | succ k ih =>
    intro done out h2
    simp only [Nat.mul_succ] at h2 ⊢
    have hxle : ((in_0.drop done).take W).length ≤ W := by
      simp only [List.length_take, List.length_drop]
      omega
    have hresle : (step ((in_0.drop done).take W) ((out.drop done).take W)).length ≤ W :=
      hsteplen _ _ hxle
    have hs : done + (step ((in_0.drop done).take W) ((out.drop done).take W)).length
        ≤ out.length := by omega
    have hlen2 : (storeAt out done
        (step ((in_0.drop done).take W) ((out.drop done).take W))).length = out.length :=
      storeAt_length hs
    obtain ⟨ihlen, ihout⟩ := ih (done + W)
      (storeAt out done (step ((in_0.drop done).take W) ((out.drop done).take W)))
      (by rw [hlen2]; omega)
    rw [galMulLoop]
    refine ⟨by rw [ihlen, hlen2], ?_⟩
    intro j hj
    rw [ihout j (by omega), storeAt_getD_ge hs (by omega)]

/-! ## Per-ISA gal_mul_impl characterizations -/

theorem avx2_gal_mul_impl_spec (low high in_0 out : List Nat) (len : Nat)
    (modifier : List Nat → List Nat → List Nat) (g : Nat → Nat → Nat)
    (hlow : low.length = 16) (hhigh : high.length = 16)
    (hin : ∀ b ∈ in_0, b < 256)
    (hinlen : len ≤ in_0.length) (houtlen : len ≤ out.length)
    (hgmod : ∀ xs os : List Nat, xs.length = 32 → os.length = 32 →
      modifier (xs.map (specByte low high)) os = List.zipWith g xs os) :
    ∀ j, j < (AVX2.gal_mul_impl low high in_0 out len modifier).2 →
      (AVX2.gal_mul_impl low high in_0 out len modifier).1.getD j 0 =
        g (in_0.getD j 0) (out.getD j 0) := by
  have tlow : AVX2.loadu_v128 low = low := by
    unfold AVX2.loadu_v128
    exact List.take_of_length_le (by omega)
  have thigh : AVX2.loadu_v128 high = high := by
    unfold AVX2.loadu_v128
    exact List.take_of_length_le (by omega)
  have e : AVX2.gal_mul_impl low high in_0 out len modifier
      = galMulLoop 32 (AVX2.gal_mul_v (AVX2.set1_epi8_v 0xf)
          (AVX2.replicate_v128_v low) (AVX2.replicate_v128_v high) modifier)
          in_0 (len / 32) 0 out := by
    simp only [AVX2.gal_mul_impl]
    rw [tlow, thigh]
  rw [e]
  have hstep : ∀ x o : List Nat, x.length = 32 → o.length = 32 →
      (∀ b ∈ x, b < 256) →
      AVX2.gal_mul_v (AVX2.set1_epi8_v 0xf) (AVX2.replicate_v128_v low)
        (AVX2.replicate_v128_v high) modifier x o = List.zipWith g x o := by
    intro x o hx ho hb
    rw [avx2_gal_mul_v_eq low high hlow hhigh modifier o hx hb, hgmod x o hx ho]
  obtain ⟨_, _, hmid⟩ := galMulLoop_spec 32 _ g in_0 hstep hin (len / 32) 0 out
    (by omega) (by omega)
  intro j hj
  rw [galMulLoop_snd] at hj
  exact hmid j (by omega) (by omega)

theorem avx512_gal_mul_impl_spec (low high in_0 out : List Nat) (len : Nat)
    (modifier : List Nat → List Nat → List Nat) (g : Nat → Nat → Nat)
    (hlow : low.length = 16) (hhigh : high.length = 16)
    (hin : ∀ b ∈ in_0, b < 256)
    (hinlen : len ≤ in_0.length) (houtlen : len ≤ out.length)
    (hgmod : ∀ xs os : List Nat, xs.length = 64 → os.length = 64 →
      modifier (xs.map (specByte low high)) os = List.zipWith g xs os) :
    ∀ j, j < (AVX512.gal_mul_impl low high in_0 out len modifier).2 →
      (AVX512.gal_mul_impl low high in_0 out len modifier).1.getD j 0 =
        g (in_0.getD j 0) (out.getD j 0) := by
  have tlow : AVX512.loadu_v128 low = low := by
    unfold AVX512.loadu_v128
    exact List.take_of_length_le (by omega)
  have thigh : AVX512.loadu_v128 high = high := by
    unfold AVX512.loadu_v128
    exact List.take_of_length_le (by omega)
  have e : AVX512.gal_mul_impl low high in_0 out len modifier
      = galMulLoop 64 (AVX512.gal_mul_v (AVX512.set1_epi8_v 0xf)
          (AVX512.replicate_v128_v low) (AVX512.replicate_v128_v high) modifier)
          in_0 (len / 64) 0 out := by
    simp only [AVX512.gal_mul_impl]
    rw [tlow, thigh]
  rw [e]
  have hstep : ∀ x o : List Nat, x.length = 64 → o.length = 64 →
      (∀ b ∈ x, b < 256) →
      AVX512.gal_mul_v (AVX512.set1_epi8_v 0xf) (AVX512.replicate_v128_v low)
        (AVX512.replicate_v128_v high) modifier x o = List.zipWith g x o := by
    intro x o hx ho hb
    rw [avx512_gal_mul_v_eq low high hlow hhigh modifier o hx hb, hgmod x o hx ho]
  obtain ⟨_, _, hmid⟩ := galMulLoop_spec 64 _ g in_0 hstep hin (len / 64) 0 out
    (by omega) (by omega)
  intro j hj
  rw [galMulLoop_snd] at hj
  exact hmid j (by omega) (by omega)

theorem neon_gal_mul_impl_spec (low high in_0 out : List Nat) (len : Nat)
    (modifier : List Nat → List Nat → List Nat) (g : Nat → Nat → Nat)
    (hlow : low.length = 16) (hhigh : high.length = 16)
    (hin : ∀ b ∈ in_0, b < 256)
    (hinlen : len ≤ in_0.length) (houtlen : len ≤ out.length)
    (hgmod : ∀ xs os : List Nat, xs.length = 16 → os.length = 16 →
      modifier (xs.map (specByte low high)) os = List.zipWith g xs os) :
    ∀ j, j < (NEON.gal_mul_impl low high in_0 out len modifier).2 →
      (NEON.gal_mul_impl low high in_0 out len modifier).1.getD j 0 =
        g (in_0.getD j 0) (out.getD j 0) := by
  have tlow : NEON.loadu_v128 low = low := by
    unfold NEON.loadu_v128
    exact List.take_of_length_le (by omega)
  have thigh : NEON.loadu_v128 high = high := by
    unfold NEON.loadu_v128
    exact List.take_of_length_le (by omega)
  have e : NEON.gal_mul_impl low high in_0 out len modifier
      = galMulLoop 16 (NEON.gal_mul_v (NEON.set1_epi8_v 0xf)
          (NEON.replicate_v128_v low) (NEON.replicate_v128_v high) modifier)
          in_0 (len / 16) 0 out := by
    simp only [NEON.gal_mul_impl]
    rw [tlow, thigh]
  rw [e]
  have hstep : ∀ x o : List Nat, x.length = 16 → o.length = 16 →
      (∀ b ∈ x, b < 256) →
      NEON.gal_mul_v (NEON.set1_epi8_v 0xf) (NEON.replicate_v128_v low)
        (NEON.replicate_v128_v high) modifier x o = List.zipWith g x o := by
    intro x o hx ho hb
    rw [neon_gal_mul_v_eq low high modifier o hx hb, hgmod x o hx ho]
  obtain ⟨_, _, hmid⟩ := galMulLoop_spec 16 _ g in_0 hstep hin (len / 16) 0 out
    (by omega) (by omega)
  intro j hj
  rw [galMulLoop_snd] at hj
  exact hmid j (by omega) (by omega)

/-! ## Claim theorems -/

theorem xor_acl (l h o : Nat) : l ^^^ h ^^^ o = o ^^^ h ^^^ l := by
  rw [Nat.xor_comm (l ^^^ h) o, Nat.xor_comm l h, ← Nat.xor_assoc]

/-- Claim C1: for the GF(2^8) kernels (AVX2, AVX512, NEON), given
16-entry lookup tables low and high and an input buffer of bytes, for
every index j below the returned count, gal_mul writes
out[j] = high[in[j] >> 4] XOR low[in[j] AND 0x0F], and gal_mul_xor
writes out[j] = old_out[j] XOR high[in[j] >> 4] XOR low[in[j] AND 0x0F]:
the vector path equals the nibble-table reference definition of
multiplication by the constant encoded in the tables. -/
theorem claim1_kernel_bytes (low high in_0 out : List Nat) (len : Nat)
    (hlow : low.length = 16) (hhigh : high.length = 16)
    (hin : ∀ b ∈ in_0, b < 256)
    (hinlen : len ≤ in_0.length) (houtlen : len ≤ out.length) :
    (∀ j, j < (AVX2.gal_mul low high in_0 out len).2 →
      (AVX2.gal_mul low high in_0 out len).1.getD j 0 =
        high.getD (in_0.getD j 0 >>> 4) 0 ^^^ low.getD (in_0.getD j 0 &&& 0x0F) 0) ∧
    (∀ j, j < (AVX2.gal_mul_xor low high in_0 out len).2 →
      (AVX2.gal_mul_xor low high in_0 out len).1.getD j 0 =
        out.getD j 0 ^^^ high.getD (in_0.getD j 0 >>> 4) 0 ^^^
          low.getD (in_0.getD j 0 &&& 0x0F) 0) ∧
    (∀ j, j < (AVX512.gal_mul low high in_0 out len).2 →
      (AVX512.gal_mul low high in_0 out len).1.getD j 0 =
        high.getD (in_0.getD j 0 >>> 4) 0 ^^^ low.getD (in_0.getD j 0 &&& 0x0F) 0) ∧
    (∀ j, j < (AVX512.gal_mul_xor low high in_0 out len).2 →
      (AVX512.gal_mul_xor low high in_0 out len).1.getD j 0 =
        out.getD j 0 ^^^ high.getD (in_0.getD j 0 >>> 4) 0 ^^^
          low.getD (in_0.getD j 0 &&& 0x0F) 0) ∧
    (∀ j, j < (NEON.gal_mul low high in_0 out len).2 →
      (NEON.gal_mul low high in_0 out len).1.getD j 0 =
        high.getD (in_0.getD j 0 >>> 4) 0 ^^^ low.getD (in_0.getD j 0 &&& 0x0F) 0) ∧
    (∀ j, j < (NEON.gal_mul_xor low high in_0 out len).2 →
      (NEON.gal_mul_xor low high in_0 out len).1.getD j 0 =
        out.getD j 0 ^^^ high.getD (in_0.getD j 0 >>> 4) 0 ^^^
          low.getD (in_0.getD j 0 &&& 0x0F) 0) := by
  have hnoop : ∀ (W : Nat) (xs os : List Nat), xs.length = W → os.length = W →
      (fun new _old => new : List Nat → List Nat → List Nat)
          (xs.map (specByte low high)) os
      = List.zipWith (fun b _ => specByte low high b) xs os := by
    intro W xs os hx ho
    exact (zipWith_const_left _ (by omega)).symm
  have hxorm : ∀ (xs os : List Nat),
      List.zipWith (fun x y => x ^^^ y) (xs.map (specByte low high)) os
      = List.zipWith (fun b o => specByte low high b ^^^ o) xs os := by
    intro xs os
    rw [List.zipWith_map_left]
  refine ⟨?_, ?_, ?_, ?_, ?_, ?_⟩
  · intro j hj
    simp only [AVX2.gal_mul] at hj ⊢
    rw [avx2_gal_mul_impl_spec low high in_0 out len AVX2.noop
      (fun b _ => specByte low high b) hlow hhigh hin hinlen houtlen
      (fun xs os hx ho => hnoop 32 xs os hx ho) j hj]
    simp [specByte, Nat.xor_comm]
  · intro j hj
    simp only [AVX2.gal_mul_xor] at hj ⊢
    rw [avx2_gal_mul_impl_spec low high in_0 out len AVX2.xor_v
      (fun b o => specByte low high b ^^^ o) hlow hhigh hin hinlen houtlen
      (fun xs os _ _ => hxorm xs os) j hj]
    simp only [specByte]
    exact xor_acl _ _ _
  · intro j hj
    simp only [AVX512.gal_mul] at hj ⊢
    rw [avx512_gal_mul_impl_spec low high in_0 out len AVX512.noop
      (fun b _ => specByte low high b) hlow hhigh hin hinlen houtlen
      (fun xs os hx ho => hnoop 64 xs os hx ho) j hj]
    simp [specByte, Nat.xor_comm]
  · intro j hj
    simp only [AVX512.gal_mul_xor] at hj ⊢
    rw [avx512_gal_mul_impl_spec low high in_0 out len AVX512.xor_v
      (fun b o => specByte low high b ^^^ o) hlow hhigh hin hinlen houtlen
      (fun xs os _ _ => hxorm xs os) j hj]
    simp only [specByte]
    exact xor_acl _ _ _
  · intro j hj
    simp only [NEON.gal_mul] at hj ⊢
    rw [neon_gal_mul_impl_spec low high in_0 out len NEON.noop
      (fun b _ => specByte low high b) hlow hhigh hin hinlen houtlen
      (fun xs os hx ho => hnoop 16 xs os hx ho) j hj]
    simp [specByte, Nat.xor_comm]
  · intro j hj
    simp only [NEON.gal_mul_xor] at hj ⊢
    rw [neon_gal_mul_impl_spec low high in_0 out len NEON.xor_v
      (fun b o => specByte low high b ^^^ o) hlow hhigh hin hinlen houtlen
      (fun xs os _ _ => hxorm xs os) j hj]
    simp only [specByte]
    exact xor_acl _ _ _

/-- Claim C2: for every tables pair, input pointer, output pointer and
length len, gal_mul and gal_mul_xor return exactly W * floor(len / W),
with stride W equal to 32 for the AVX2 kernel, 64 for the AVX512 kernel
and 16 for the NEON kernel. -/
theorem claim2_returned_count (low high in_0 out : List Nat) (len : Nat) :
    (AVX2.gal_mul low high in_0 out len).2 = 32 * (len / 32) ∧
    (AVX2.gal_mul_xor low high in_0 out len).2 = 32 * (len / 32) ∧
    (AVX512.gal_mul low high in_0 out len).2 = 64 * (len / 64) ∧
    (AVX512.gal_mul_xor low high in_0 out len).2 = 64 * (len / 64) ∧
    (NEON.gal_mul low high in_0 out len).2 = 16 * (len / 16) ∧
    (NEON.gal_mul_xor low high in_0 out len).2 = 16 * (len / 16) := by
  refine ⟨?_, ?_, ?_, ?_, ?_, ?_⟩ <;>
    simp [AVX2.gal_mul, AVX2.gal_mul_xor, AVX2.gal_mul_impl,
      AVX512.gal_mul, AVX512.gal_mul_xor, AVX512.gal_mul_impl,
      NEON.gal_mul, NEON.gal_mul_xor, NEON.gal_mul_impl, galMulLoop_snd]

/-- Claim C9: the kernels write only the first W * floor(len / W) bytes
of the out buffer: the output keeps its length, every byte at an offset
at or past the returned count is unchanged, and when len is below the
stride the call returns 0 and leaves out entirely unchanged. The input
buffer is a read-only argument of the model. -/
theorem claim9_kernel_frame (low high in_0 out : List Nat) (len : Nat) :
    ((len ≤ out.length →
      (AVX2.gal_mul low high in_0 out len).1.length = out.length ∧
      ∀ j, (AVX2.gal_mul low high in_0 out len).2 ≤ j →
        (AVX2.gal_mul low high in_0 out len).1.getD j 0 = out.getD j 0) ∧
     (len < 32 → (AVX2.gal_mul low high in_0 out len).1 = out ∧
        (AVX2.gal_mul low high in_0 out len).2 = 0)) ∧
    ((len ≤ out.length →
      (AVX2.gal_mul_xor low high in_0 out len).1.length = out.length ∧
      ∀ j, (AVX2.gal_mul_xor low high in_0 out len).2 ≤ j →
        (AVX2.gal_mul_xor low high in_0 out len).1.getD j 0 = out.getD j 0) ∧
     (len < 32 → (AVX2.gal_mul_xor low high in_0 out len).1 = out ∧
        (AVX2.gal_mul_xor low high in_0 out len).2 = 0)) ∧
    ((len ≤ out.length →
      (AVX512.gal_mul low high in_0 out len).1.length = out.length ∧
      ∀ j, (AVX512.gal_mul low high in_0 out len).2 ≤ j →
        (AVX512.gal_mul low high in_0 out len).1.getD j 0 = out.getD j 0) ∧
     (len < 64 → (AVX512.gal_mul low high in_0 out len).1 = out ∧
        (AVX512.gal_mul low high in_0 out len).2 = 0)) ∧
    ((len ≤ out.length →
      (AVX512.gal_mul_xor low high in_0 out len).1.length = out.length ∧
      ∀ j, (AVX512.gal_mul_xor low high in_0 out len).2 ≤ j →
        (AVX512.gal_mul_xor low high in_0 out len).1.getD j 0 = out.getD j 0) ∧
     (len < 64 → (AVX512.gal_mul_xor low high in_0 out len).1 = out ∧
        (AVX512.gal_mul_xor low high in_0 out len).2 = 0)) ∧
    ((len ≤ out.length →
      (NEON.gal_mul low high in_0 out len).1.length = out.length ∧
      ∀ j, (NEON.gal_mul low high in_0 out len).2 ≤ j →
        (NEON.gal_mul low high in_0 out len).1.getD j 0 = out.getD j 0) ∧
     (len < 16 → (NEON.gal_mul low high in_0 out len).1 = out ∧
        (NEON.gal_mul low high in_0 out len).2 = 0)) ∧
    ((len ≤ out.length →
      (NEON.gal_mul_xor low high in_0 out len).1.length = out.length ∧
      ∀ j, (NEON.gal_mul_xor low high in_0 out len).2 ≤ j →
        (NEON.gal_mul_xor low high in_0 out len).1.getD j 0 = out.getD j 0) ∧
     (len < 16 → (NEON.gal_mul_xor low high in_0 out len).1 = out ∧
        (NEON.gal_mul_xor low high in_0 out len).2 = 0)) := by
  have hmodnoop2 : ∀ n o : List Nat, (AVX2.noop n o).length ≤ n.length := by
    intro n o
    simp [AVX2.noop]
  have hmodxor2 : ∀ n o : List Nat, (AVX2.xor_v n o).length ≤ n.length := by
    intro n o
    simp [AVX2.xor_v, List.length_zipWith]
  have hmodnoop5 : ∀ n o : List Nat, (AVX512.noop n o).length ≤ n.length := by
    intro n o
    simp [AVX512.noop]
  have hmodxor5 : ∀ n o : List Nat, (AVX512.xor_v n o).length ≤ n.length := by
    intro n o
    simp [AVX512.xor_v, List.length_zipWith]
  have hmodnoopn : ∀ n o : List Nat, (NEON.noop n o).length ≤ n.length := by
    intro n o
    simp [NEON.noop]
  have hmodxorn : ∀ n o : List Nat, (NEON.xor_v n o).length ≤ n.length := by
    intro n o
    simp [NEON.xor_v, List.length_zipWith]
  refine ⟨⟨?_, ?_⟩, ⟨?_, ?_⟩, ⟨?_, ?_⟩, ⟨?_, ?_⟩, ⟨?_, ?_⟩, ⟨?_, ?_⟩⟩
  · intro hout
    obtain ⟨hl, hfr⟩ := galMulLoop_frame 32
      (AVX2.gal_mul_v (AVX2.set1_epi8_v 0xf)
        (AVX2.replicate_v128_v (AVX2.loadu_v128 low))
        (AVX2.replicate_v128_v (AVX2.loadu_v128 high)) AVX2.noop) in_0
      (fun x o hx => avx2_step_length_le _ _ AVX2.noop hmodnoop2 x o hx)
      (len / 32) 0 out (by omega)
    simp only [AVX2.gal_mul, AVX2.gal_mul_impl]
    exact ⟨hl, fun j hj => hfr j (by rw [galMulLoop_snd] at hj; omega)⟩
  · intro hlt
    have h0 : len / 32 = 0 := Nat.div_eq_of_lt hlt
    simp [AVX2.gal_mul, AVX2.gal_mul_impl, h0, galMulLoop]
  · intro hout
    obtain ⟨hl, hfr⟩ := galMulLoop_frame 32
      (AVX2.gal_mul_v (AVX2.set1_epi8_v 0xf)
        (AVX2.replicate_v128_v (AVX2.loadu_v128 low))
        (AVX2.replicate_v128_v (AVX2.loadu_v128 high)) AVX2.xor_v) in_0
      (fun x o hx => avx2_step_length_le _ _ AVX2.xor_v hmodxor2 x o hx)
      (len / 32) 0 out (by omega)
    simp only [AVX2.gal_mul_xor, AVX2.gal_mul_impl]
    exact ⟨hl, fun j hj => hfr j (by rw [galMulLoop_snd] at hj; omega)⟩
  · intro hlt
    have h0 : len / 32 = 0 := Nat.div_eq_of_lt hlt
    simp [AVX2.gal_mul_xor, AVX2.gal_mul_impl, h0, galMulLoop]
  · intro hout
    obtain ⟨hl, hfr⟩ := galMulLoop_frame 64
      (AVX512.gal_mul_v (AVX512.set1_epi8_v 0xf)
        (AVX512.replicate_v128_v (AVX512.loadu_v128 low))
        (AVX512.replicate_v128_v (AVX512.loadu_v128 high)) AVX512.noop) in_0
      (fun x o hx => avx512_step_length_le _ _ AVX512.noop hmodnoop5 x o hx)
      (len / 64) 0 out (by omega)
    simp only [AVX512.gal_mul, AVX512.gal_mul_impl]
    exact ⟨hl, fun j hj => hfr j (by rw [galMulLoop_snd] at hj; omega)⟩
  · intro hlt
    have h0 : len / 64 = 0 := Nat.div_eq_of_lt hlt
    simp [AVX512.gal_mul, AVX512.gal_mul_impl, h0, galMulLoop]
  · intro hout
    obtain ⟨hl, hfr⟩ := galMulLoop_frame 64
      (AVX512.gal_mul_v (AVX512.set1_epi8_v 0xf)
        (AVX512.replicate_v128_v (AVX512.loadu_v128 low))
        (AVX512.replicate_v128_v (AVX512.loadu_v128 high)) AVX512.xor_v) in_0
      (fun x o hx => avx512_step_length_le _ _ AVX512.xor_v hmodxor5 x o hx)
      (len / 64) 0 out (by omega)
    simp only [AVX512.gal_mul_xor, AVX512.gal_mul_impl]
    exact ⟨hl, fun j hj => hfr j (by rw [galMulLoop_snd] at hj; omega)⟩
  · intro hlt
    have h0 : len / 64 = 0 := Nat.div_eq_of_lt hlt
    simp [AVX512.gal_mul_xor, AVX512.gal_mul_impl, h0, galMulLoop]
  · intro hout
    obtain ⟨hl, hfr⟩ := galMulLoop_frame 16
      (NEON.gal_mul_v (NEON.set1_epi8_v 0xf)
        (NEON.replicate_v128_v (NEON.loadu_v128 low))
        (NEON.replicate_v128_v (NEON.loadu_v128 high)) NEON.noop) in_0
      (fun x o hx => neon_step_length_le _ _ NEON.noop hmodnoopn x o hx)
      (len / 16) 0 out (by omega)
    simp only [NEON.gal_mul, NEON.gal_mul_impl]
    exact ⟨hl, fun j hj => hfr j (by rw [galMulLoop_snd] at hj; omega)⟩
  · intro hlt
    have h0 : len / 16 = 0 := Nat.div_eq_of_lt hlt
    simp [NEON.gal_mul, NEON.gal_mul_impl, h0, galMulLoop]
  · intro hout
    obtain ⟨hl, hfr⟩ := galMulLoop_frame 16
      (NEON.gal_mul_v (NEON.set1_epi8_v 0xf)
        (NEON.replicate_v128_v (NEON.loadu_v128 low))
        (NEON.replicate_v128_v (NEON.loadu_v128 high)) NEON.xor_v) in_0
      (fun x o hx => neon_step_length_le _ _ NEON.xor_v hmodxorn x o hx)
      (len / 16) 0 out (by omega)
    simp only [NEON.gal_mul_xor, NEON.gal_mul_impl]
    exact ⟨hl, fun j hj => hfr j (by rw [galMulLoop_snd] at hj; omega)⟩
  · intro hlt
    have h0 : len / 16 = 0 := Nat.div_eq_of_lt hlt
    simp [NEON.gal_mul_xor, NEON.gal_mul_impl, h0, galMulLoop]

/-- Witness for claim C1 at concrete tables and buffers. -/
theorem claim1_kernel_bytes_witness :
    wlow.length = 16 ∧ whigh.length = 16 ∧ (∀ b ∈ win, b < 256) ∧
    64 ≤ win.length ∧ 64 ≤ wout.length ∧
    (AVX2.gal_mul wlow whigh win wout 64).1.getD 0 0 =
      whigh.getD (win.getD 0 0 >>> 4) 0 ^^^ wlow.getD (win.getD 0 0 &&& 0x0F) 0 := by
  refine ⟨rfl, rfl, by decide, by decide, by decide, ?_⟩
  have hc : (AVX2.gal_mul wlow whigh win wout 64).2 = 64 := by
    simp [AVX2.gal_mul, AVX2.gal_mul_impl, galMulLoop_snd]
  exact (claim1_kernel_bytes wlow whigh win wout 64 rfl rfl (by decide)
    (by decide) (by decide)).1 0 (by omega)

/-- Witness for claim C9 at concrete tables and buffers. -/
theorem claim9_kernel_frame_witness :
    (64 : Nat) ≤ wout.length ∧
    (AVX2.gal_mul wlow whigh win wout 64).1.length = wout.length ∧
    (31 : Nat) < 32 ∧
    (AVX2.gal_mul wlow whigh win wout 31).1 = wout := by
  refine ⟨by decide, ?_, by decide, ?_⟩
  · exact ((claim9_kernel_frame wlow whigh win wout 64).1.1 (by decide)).1
  · exact ((claim9_kernel_frame wlow whigh win wout 31).1.2 (by decide)).1

theorem getD_zipWith_poly {α : Type} (f : α → α → α) (a b : List α) (j : Nat) (d : α)
    (ha : j < a.length) (hb : j < b.length) :
    (List.zipWith f a b).getD j d = f (a.getD j d) (b.getD j d) := by
  induction a generalizing b j with
  | nil => simp at ha
  | cons x xs ih =>
    cases b with
    | nil => simp at hb
    | cons y ys =>
      cases j with
      | zero => simp
      | succ j =>
        simp only [List.zipWith_cons_cons, List.getD_cons_succ]
        exact ih ys j (by simpa using ha) (by simpa using hb)

/-- Claim C3: for every field, element and equal-length slices, the
default mul_slice writes out[j] = mul(e, input[j]) at every index and the
default mul_slice_add writes out[j] = add(old_out[j], mul(e, input[j])). -/
theorem claim3_mul_slice_defaults (α : Type) (F : Field α) (elem : α)
    (input out : List α) (h : input.length = out.length) :
    (∃ r, F.mul_slice elem input out = some r ∧ r.length = out.length ∧
      ∀ j, j < out.length →
        r.getD j F.zero = F.mul elem (input.getD j F.zero)) ∧
    (∃ r, F.mul_slice_add elem input out = some r ∧ r.length = out.length ∧
      ∀ j, j < out.length →
        r.getD j F.zero = F.add (out.getD j F.zero) (F.mul elem (input.getD j F.zero))) := by
  constructor
  · refine ⟨List.zipWith (fun i _o => F.mul elem i) input out, ?_, ?_, ?_⟩
    · simp [Field.mul_slice, h]
    · simp [List.length_zipWith, h]
    · intro j hj
      rw [getD_zipWith_poly _ _ _ _ _ (by omega) (by omega)]
  · refine ⟨List.zipWith (fun i o => F.add o (F.mul elem i)) input out, ?_, ?_, ?_⟩
    · simp [Field.mul_slice_add, h]
    · simp [List.length_zipWith, h]
    · intro j hj
      rw [getD_zipWith_poly _ _ _ _ _ (by omega) (by omega)]

/-- Witness for claim C3 over the concrete field of naturals modulo 2. -/
theorem claim3_mul_slice_defaults_witness :
    ([1, 0, 1] : List Nat).length = ([0, 0, 0] : List Nat).length ∧
    (∃ r, natF.mul_slice 1 [1, 0, 1] [0, 0, 0] = some r ∧ r.length = 3 ∧
      ∀ j, j < 3 → r.getD j natF.zero = natF.mul 1 (([1, 0, 1] : List Nat).getD j natF.zero)) :=
  ⟨rfl, (claim3_mul_slice_defaults Nat natF 1 [1, 0, 1] [0, 0, 0] rfl).1⟩

/-- Claim C7: Field nth panics exactly when the index is at least ORDER
(the panic is modelled as none) and otherwise returns nth_internal. -/
theorem claim7_nth_panics (α : Type) (F : Field α) (n : Nat) :
    (F.ORDER ≤ n → F.nth n = none) ∧
    (n < F.ORDER → F.nth n = some (F.nth_internal n)) := by
  constructor
  · intro h
    simp [Field.nth, h]
  · intro h
    simp [Field.nth, Nat.not_le.mpr h]

/-- Witness for claim C7 over the concrete field of naturals modulo 2. -/
theorem claim7_nth_panics_witness :
    (natF.ORDER ≤ 5 ∧ natF.nth 5 = none) ∧
    (1 < natF.ORDER ∧ natF.nth 1 = some (natF.nth_internal 1)) :=
  ⟨⟨by decide, (claim7_nth_panics Nat natF 5).1 (by decide)⟩,
   ⟨by decide, (claim7_nth_panics Nat natF 1).2 (by decide)⟩⟩

/-- Claim C10: for both standard shard forms is_empty equals the
len-is-none test, and a present shard with an empty buffer has
is_empty false and len some 0. -/
theorem claim10_is_empty_iff_len_none (α : Type) :
    (∀ o : Option (List α), optIsEmpty o = (optLen o).isNone) ∧
    (∀ t : List α × Bool, tupIsEmpty t = (tupLen t).isNone) ∧
    (∀ b : List α, optIsEmpty (some b) = false ∧ optLen (some b) = some b.length) ∧
    (∀ b : List α, tupIsEmpty (b, true) = false ∧ tupLen (b, true) = some b.length) ∧
    optIsEmpty (some ([] : List α)) = false ∧ optLen (some ([] : List α)) = some 0 ∧
    tupIsEmpty (([] : List α), true) = false ∧ tupLen (([] : List α), true) = some 0 := by
  refine ⟨fun o => rfl, fun t => rfl, fun b => ⟨rfl, rfl⟩, fun b => ⟨?_, ?_⟩,
    rfl, rfl, ?_, ?_⟩ <;> simp [tupIsEmpty, tupLen]

/-- Claim C4: Platform detect probes features in descending capability
order and returns the first one detected (AVX512, then AVX2, then SSE3
on x86; NEON on ARM; Portable when nothing is detected), and each
suppression build flag forces its detector to false so the suppressed
platform is never selected. -/
theorem claim4_platform_detect (flags : BuildFlags) (cpu : CpuFeatures) :
    (avx512_detected flags cpu = true →
      Platform.detect Arch.x86 flags cpu = Platform.AVX512) ∧
    (avx512_detected flags cpu = false → avx2_detected flags cpu = true →
      Platform.detect Arch.x86 flags cpu = Platform.AVX2) ∧
    (avx512_detected flags cpu = false → avx2_detected flags cpu = false →
      sse3_detected flags cpu = true →
      Platform.detect Arch.x86 flags cpu = Platform.SSE3) ∧
    (avx512_detected flags cpu = false → avx2_detected flags cpu = false →
      sse3_detected flags cpu = false →
      Platform.detect Arch.x86 flags cpu = Platform.Portable) ∧
    (neon_detected Arch.aarch64 flags cpu = true →
      Platform.detect Arch.aarch64 flags cpu = Platform.NEON) ∧
    (neon_detected Arch.aarch64 flags cpu = false →
      Platform.detect Arch.aarch64 flags cpu = Platform.Portable) ∧
    (neon_detected Arch.arm flags cpu = true →
      Platform.detect Arch.arm flags cpu = Platform.NEON) ∧
    (neon_detected Arch.arm flags cpu = false →
      Platform.detect Arch.arm flags cpu = Platform.Portable) ∧
    (flags.no_avx512 = true → avx512_detected flags cpu = false ∧
      ∀ arch, Platform.detect arch flags cpu ≠ Platform.AVX512) ∧
    (flags.no_avx2 = true → avx2_detected flags cpu = false ∧
      ∀ arch, Platform.detect arch flags cpu ≠ Platform.AVX2) ∧
    (flags.no_sse3 = true → sse3_detected flags cpu = false ∧
      ∀ arch, Platform.detect arch flags cpu ≠ Platform.SSE3) ∧
    (flags.no_neon = true → (∀ arch, neon_detected arch flags cpu = false) ∧
      ∀ arch, Platform.detect arch flags cpu ≠ Platform.NEON) := by
  refine ⟨?_, ?_, ?_, ?_, ?_, ?_, ?_, ?_, ?_, ?_, ?_, ?_⟩
  · intro h
    simp [Platform.detect, h]
  · intro h1 h2
    simp [Platform.detect, h1, h2]
  · intro h1 h2 h3
    simp [Platform.detect, h1, h2, h3]
  · intro h1 h2 h3
    simp [Platform.detect, h1, h2, h3]
  · intro h
    simp [Platform.detect, h]
  · intro h
    simp [Platform.detect, h]
  · intro h
    simp [Platform.detect, h]
  · intro h
    simp [Platform.detect, h]
  · intro h
    have hd : avx512_detected flags cpu = false := by simp [avx512_detected, h]
    refine ⟨hd, ?_⟩
    intro arch
    cases arch <;> simp [Platform.detect, hd] <;> split_ifs <;> simp
  · intro h
    have hd : avx2_detected flags cpu = false := by simp [avx2_detected, h]
    refine ⟨hd, ?_⟩
    intro arch
    cases arch <;> simp [Platform.detect, hd] <;> split_ifs <;> simp
  · intro h
    have hd : sse3_detected flags cpu = false := by simp [sse3_detected, h]
    refine ⟨hd, ?_⟩
    intro arch
    cases arch <;> simp [Platform.detect, hd] <;> split_ifs <;> simp
  · intro h
    have hd : ∀ arch, neon_detected arch flags cpu = false := by
      intro arch
      simp [neon_detected, h]
    refine ⟨hd, ?_⟩
    intro arch
    cases arch
    all_goals simp [Platform.detect, hd]
    all_goals split_ifs
    all_goals simp

/-- Witness for claim C4 at concrete flags and features. -/
theorem claim4_platform_detect_witness :
    avx512_detected bf0 cf0 = true ∧
    Platform.detect Arch.x86 bf0 cf0 = Platform.AVX512 :=
  ⟨rfl, (claim4_platform_detect bf0 cf0).1 rfl⟩

theorem and128_eq_zero_iff (m : Nat) : m &&& 128 = 0 ↔ m.testBit 7 = false := by
  constructor
  · intro h
    by_contra hb
    rw [Bool.not_eq_false] at hb
    have h7 : (m &&& 128).testBit 7 = true := by
      rw [Nat.testBit_and, hb]
      rfl
    rw [h] at h7
    simp at h7
  · intro h
    apply Nat.eq_of_testBit_eq
    intro i
    rw [Nat.testBit_and, Nat.zero_testBit]
    by_cases hi : i = 7
    · subst hi
      rw [h]
      rfl
    · have h128 : (128 : Nat).testBit i = false := by
        rw [show (128 : Nat) = 2 ^ 7 by norm_num]
        exact Nat.testBit_two_pow_of_ne (fun he => hi he.symm)
      rw [h128, Bool.and_false]

theorem do_byte_eq (vec mask : List Nat) (i : Nat) :
    NEON.do_byte vec mask i =
      if (mask.getD i 0).testBit 7 then 0
      else vec.getD (mask.getD i 0 % 16) 0 := by
  unfold NEON.do_byte
  rw [and15_eq_mod]
  by_cases h : (mask.getD i 0).testBit 7
  · rw [if_pos h, if_neg]
    intro hz
    rw [(and128_eq_zero_iff _).mp hz] at h
    cases h
  · rw [if_neg h, if_pos ((and128_eq_zero_iff _).mpr (Bool.not_eq_true _ ▸ h))]

/-- Claim C8: the 32-bit ARM emulated 16-byte shuffle computes output
byte 0 when bit 7 of the mask byte is set and the vector byte indexed by
the low nibble of the mask byte otherwise. -/
theorem claim8_arm_shuffle (vec mask : List Nat) (i : Nat) (hi : i < 16) :
    (NEON.shuffle_epi8_v_arm vec mask).length = 16 ∧
    (NEON.shuffle_epi8_v_arm vec mask).getD i 0 =
      (if (mask.getD i 0).testBit 7 then 0
       else vec.getD (mask.getD i 0 % 16) 0) ∧
    (NEON.shuffle_epi8_v_arm vec mask).getD i 0 =
      (if mask.getD i 0 &&& 0x80 = 0 then vec.getD (mask.getD i 0 &&& 0x0F) 0
       else 0) := by
  have hdo : (NEON.shuffle_epi8_v_arm vec mask).getD i 0 = NEON.do_byte vec mask i := by
    unfold NEON.shuffle_epi8_v_arm
    interval_cases i <;> rfl
  refine ⟨rfl, ?_, ?_⟩
  · rw [hdo, do_byte_eq]
  · rw [hdo]
    rfl

/-- Witness for claim C8 at a concrete vector, mask and position. -/
theorem claim8_arm_shuffle_witness :
    (3 : Nat) < 16 ∧
    (NEON.shuffle_epi8_v_arm wlow whigh).getD 3 0 =
      (if (whigh.getD 3 0).testBit 7 then 0
       else wlow.getD (whigh.getD 3 0 % 16) 0) :=
  ⟨by decide, (claim8_arm_shuffle wlow whigh 3 (by decide)).2.1⟩

/-- Counterexample to claim C5 as stated: in the Option shard form a
pre-existing buffer of length 1 requested at length 2 is returned as ok
without any length check, not rejected with IncorrectShardSize. -/
theorem claim5_counterexample :
    (optGetOrInitialize natF (some [1]) 2).1 = Except.ok [1] ∧
    (optGetOrInitialize natF (some [1]) 2).1 ≠
      Except.error (Except.error Error.IncorrectShardSize) := by
  refine ⟨rfl, ?_⟩
  intro h
  simp [optGetOrInitialize] at h

/-- Amended claim C5: only the pair shard form rejects a buffer whose
length differs from the requested length with IncorrectShardSize (for
any value of the present flag); the Option shard form performs no length
check and returns its pre-existing buffer as ok. -/
theorem claim5_amended (α : Type) (F : Field α) (b : List α) (len : Nat)
    (flag : Bool) (hb : b.length ≠ len) :
    (tupGetOrInitialize (b, flag) len).1 =
      Except.error (Except.error Error.IncorrectShardSize) ∧
    (optGetOrInitialize F (some b) len).1 = Except.ok b := by
  constructor
  · simp [tupGetOrInitialize, hb]
  · rfl

/-- Witness for the amended claim C5 at a concrete shard. -/
theorem claim5_amended_witness :
    ([1] : List Nat).length ≠ 2 ∧
    (tupGetOrInitialize (([1] : List Nat), false) 2).1 =
      Except.error (Except.error Error.IncorrectShardSize) ∧
    (optGetOrInitialize natF (some [1]) 2).1 = Except.ok [1] := by
  refine ⟨by decide, ?_, ?_⟩
  · exact (claim5_amended Nat natF [1] 2 false (by decide)).1
  · exact (claim5_amended Nat natF [1] 2 false (by decide)).2

/-- Counterexample to claim C6 as stated: in the pair shard form with the
present flag false and a matching length, get_or_initialize reports the
buffer as freshly available, yet the buffer is the caller's buffer with a
nonzero element rather than a zero-filled one. -/
theorem claim6_counterexample :
    (tupGetOrInitialize (([1] : List Nat), false) 1).1 =
      Except.error (Except.ok [1]) ∧
    ¬ (∀ x ∈ ([1] : List Nat), x = natF.zero) := by
  refine ⟨rfl, ?_⟩
  intro h
  have := h 1 (by decide)
  simp [natF] at this

/-- Amended claim C6: in the Option shard form a fresh report yields a
zero-filled buffer of exactly the requested length; in the pair shard
form a fresh report guarantees the buffer length equals the requested
length, but the contents are the caller's buffer unchanged and need not
be zero. -/
theorem claim6_amended (α : Type) (F : Field α) :
    (∀ (self : Option (List α)) (len : Nat) (buf : List α),
      (optGetOrInitialize F self len).1 = Except.error (Except.ok buf) →
      buf.length = len ∧ ∀ x ∈ buf, x = F.zero) ∧
    (∀ (b : List α) (flag : Bool) (len : Nat) (buf : List α),
      (tupGetOrInitialize (b, flag) len).1 = Except.error (Except.ok buf) →
      buf.length = len ∧ buf = b) := by
  constructor
  · intro self len buf h
    cases self with
    | some b => simp [optGetOrInitialize] at h
    | none =>
      simp only [optGetOrInitialize, Option.isSome_none, Bool.false_eq_true,
        if_false, Except.error.injEq, Except.ok.injEq] at h
      constructor
      · rw [← h]
        simp
      · intro x hx
        rw [← h] at hx
        exact List.eq_of_mem_replicate hx
  · intro b flag len buf h
    by_cases hl : b.length = len
    · cases flag with
      | true => simp [tupGetOrInitialize, hl] at h
      | false =>
        simp only [tupGetOrInitialize, if_pos hl, Bool.false_eq_true, if_false,
          Except.error.injEq, Except.ok.injEq] at h
        exact ⟨h ▸ hl, h.symm⟩
    · simp [tupGetOrInitialize, hl] at h

/-- Witness for the amended claim C6 at a concrete fresh Option shard. -/
theorem claim6_amended_witness :
    (optGetOrInitialize natF none 2).1 = Except.error (Except.ok [0, 0]) ∧
    ([0, 0] : List Nat).length = 2 ∧ (∀ x ∈ ([0, 0] : List Nat), x = natF.zero) :=
  ⟨rfl, (claim6_amended Nat natF).1 none 2 [0, 0] rfl⟩

end RSE
